import Mathlib

/-!
# gfal2-xrootd: third-party copy orchestration and directory listing cursor

A shallow embedding of `src/gfal_xrootd_plugin_3rd_copy.cpp` and of the
directory-listing and checksum parts of `src/gfal_xrootd_plugin_interface.cpp`.

Conventions of the embedding.

* A C string is the list of its bytes before the terminating NUL (`CStr`).
* Out-parameters (`GError** err`, `GError*** file_errors`, `struct stat* st`,
  the checksum buffer) are returned as fields of an outcome record; `none`
  stands for a pointer that was left `NULL`.
* Calls into the XrdCl engine and the gfal2 host are fields of an environment
  record; the calls that matter for the properties below are also recorded in
  a trace carried by the outcome.
* The XRootD 4 variant of the conditional code (`XrdMajorVNUM(XrdVNUMBER) == 4`)
  is the one embedded.
* Where the source has no defined behaviour the embedding says so: a call that
  reads through a wild pointer has the result `none`
  (`gfal_xrootd_3rd_copy`), and the content left by a `strcpy` between
  overlapping areas is a field of the environment (`overlapped_strcpy`).
-/

namespace GfalXrootd

/-! ## C strings -/

/-- A C string, as the list of its bytes before the terminating NUL. -/
abbrev CStr := List Char

/-- The byte read at the head of a C string: its first byte, or the NUL
terminator when the string is empty. -/
def headByte (s : CStr) : Char := s.headD (Char.ofNat 0)

/-- The libc function `strncmp(a, b, n)`: compares at most `n` bytes, stops at the first
difference or at a NUL, and returns the difference of the two bytes there. -/
def strncmp : CStr → CStr → Nat → Int
  | _, _, 0 => 0
  | a, b, n + 1 =>
    if headByte a ≠ headByte b then
      ((headByte a).toNat : Int) - ((headByte b).toNat : Int)
    else if headByte a = Char.ofNat 0 then 0
    else strncmp a.tail b.tail n

/-- The operation kinds of `gfal_url2_check`; `other` stands for any further
value of the enumeration. -/
inductive gfal_url2_check where
  | GFAL_FILE_COPY
  | GFAL_BULK_COPY
  | other (v : Nat)
  deriving DecidableEq, Repr

/-- The scheme prefix the plugin accepts, the literal `"root://"`. -/
def rootScheme : CStr := ['r', 'o', 'o', 't', ':', '/', '/']

/-- The capability check `gfal_xrootd_3rdcopy_check` (the plugin handle and the context are not used). -/
def gfal_xrootd_3rdcopy_check (src dst : CStr) (check : gfal_url2_check) : Int :=
  if check ≠ gfal_url2_check.GFAL_FILE_COPY ∧ check ≠ gfal_url2_check.GFAL_BULK_COPY then 0
  else if strncmp src rootScheme 7 = 0 ∧ strncmp dst rootScheme 7 = 0 then 1 else 0

/-! ## Engine and host types -/

/-- The engine status `XrdCl::XRootDStatus`: the `status`, `code` and `errNo` fields and the
server message. -/
structure XRootDStatus where
  status : Nat
  code : Nat
  errNo : Nat
  message : String
  deriving DecidableEq, Repr

/-- The test `XRootDStatus::IsOK()`: the status field is `stOK`, which is 0. -/
def XRootDStatus.IsOK (s : XRootDStatus) : Bool := s.status == 0

/-- A glib `GError`: domain, numeric code and message. -/
structure GError where
  domain : String
  code : Int
  message : String
  deriving DecidableEq, Repr

/-- The error domain `xrootd_domain`, the quark of the static string `"xroot"`. -/
def xrootd_domain : String := "xroot"

/-- The two's complement value of a C `int` (32 bits). -/
def int32 (x : Int) : Int := (x + 2147483648) % 4294967296 - 2147483648

/-- What the host (the transfer parameters and the gfal2 context) and the
helpers of `gfal_xrootd_plugin_utils` answer during one call. The helpers are
declared outside `src/` and are taken as they are. -/
structure CopyEnv where
  /-- The flag `gfalt_get_checksum_check(params, NULL)`. -/
  checksum_check : Bool
  /-- The token `gfalt_get_src_spacetoken(params, NULL)`, `none` for `NULL`. -/
  src_spacetoken : Option CStr
  /-- The token `gfalt_get_dst_spacetoken(params, NULL)`, `none` for `NULL`. -/
  dst_spacetoken : Option CStr
  /-- The flag `gfalt_get_replace_existing_file(params, NULL)`. -/
  replace_existing_file : Bool
  /-- The value `gfalt_get_timeout(params, NULL)`. -/
  timeout : Nat
  /-- Whether `gfalt_get_monitor_callback(params, NULL)` is non-`NULL`. -/
  monitor_callback : Bool
  /-- The pair `gfalt_get_user_defined_checksum` reports: type and value. -/
  user_defined_checksum : CStr × CStr
  /-- The lookup `gfal2_get_opt_string(context, XROOTD_CONFIG_GROUP, XROOTD_DEFAULT_CHECKSUM, &internalError)`. -/
  default_checksum : Except GError CStr
  /-- The configured `XROOTD_CHECKSUM_MODE`, `none` when it is not set. -/
  checksum_mode : Option CStr
  /-- The configured `XROOTD_PARALLEL_COPIES`, `none` when it is not set. -/
  parallel_copies : Option Int
  /-- The helper `normalize_url(context, url)`. -/
  normalize_url : CStr → CStr
  /-- The text `XrdCl::URL::GetURL()` gives for a URL parsed from a string, with the
  `svcClass` parameter set when a token is given. -/
  GetURL : CStr → Option CStr → CStr
  /-- The helper `predefined_checksum_type_to_lower`. -/
  predefined_checksum_type_to_lower : CStr → CStr
  /-- The helper `xrootd_errno_to_posix_errno`. -/
  xrootd_errno_to_posix_errno : Nat → Int
  /-- The text `XRootDStatus::ToStr()`. -/
  ToStr : XRootDStatus → String
  /-- The text `gfal2_propagate_prefixed_error` puts in front of a message for a
  function name. -/
  prefix_of : String → String

/-- The job description handed to `CopyProcess::AddJob`, a property list with
these keys; the three checksum keys are absent (`none`) when no checksum
verification is requested. -/
structure TransferJob where
  source : CStr
  target : CStr
  force : Bool
  posc : Bool
  thirdParty : CStr
  tpcTimeout : Nat
  checkSumMode : Option CStr
  checkSumType : Option CStr
  checkSumPreset : Option CStr
  deriving DecidableEq, Repr

/-- A job of the copy process: a transfer, or the configuration job that
carries the parallelism degree. -/
inductive CopyJob where
  | transfer (j : TransferJob)
  | configuration (parallel : Int)
  deriving DecidableEq, Repr

/-- The copy engine `XrdCl::CopyProcess` as seen by the orchestrator: the
status of `Prepare()`, the status of `Run()`, and the status each per-job
result record holds after the run (`results[i].Get<XRootDStatus>("status")`). -/
structure CopyProcess where
  Prepare : List CopyJob → XRootDStatus
  Run : List CopyJob → XRootDStatus
  result_status : List CopyJob → Nat → XRootDStatus

/-- The engine calls that the orchestrator makes after the jobs are added. -/
inductive EngineCall where
  | Prepare
  | Run
  deriving DecidableEq, Repr

/-! ## Transfer job builder -/

/-- The libc predicate `isspace` in the C locale. -/
def isspace (c : Char) : Bool :=
  c == ' ' || c == '\t' || c == '\n' || c == Char.ofNat 11 || c == Char.ofNat 12 || c == '\r'

/-- The `%s` directive of `sscanf`: skips leading white space, then reads the
longest run of bytes that are not white space. Gives the run and the rest of
the input, or `none` when the input ends before any byte is read. -/
def scan_s (inp : CStr) : Option (CStr × CStr) :=
  let inp1 := inp.dropWhile isspace
  let tok := inp1.takeWhile (fun c => !isspace c)
  if tok = [] then none else some (tok, inp1.dropWhile (fun c => !isspace c))

/-- The call `sscanf(inp, "%s:%s", t, v)`: the first `%s`, then the literal `:`,
then the second `%s`; scanning stops at the first directive that fails, and a
buffer whose directive was not reached keeps its content. Returns the two
buffers after the call. (A run of 64 bytes or more overruns `checksumType`;
the embedding keeps the whole run.) -/
def sscanf_s_colon_s (inp t v : CStr) : CStr × CStr :=
  match scan_s inp with
  | none => (t, v)
  | some (tok1, rest) =>
    match rest with
    | ':' :: rest1 =>
      match scan_s rest1 with
      | none => (tok1, v)
      | some (tok2, _) => (tok1, tok2)
    | _ => (tok1, v)

/-- The libc call `strncpy(dst, src, n)` read back as a C string: the first `n` bytes of
`src`. (For a source of `n` bytes or more the C buffer is left without a
terminator and reading it back runs past the buffer; the embedding keeps the
`n` bytes.) -/
def strncpy (src : CStr) (n : Nat) : CStr := src.take n

/-- The glib call `g_strlcpy(dest, src, size)` read back as a C string: at most `size - 1`
bytes of `src`. -/
def g_strlcpy (src : CStr) (size : Nat) : CStr := src.take (size - 1)

/-- The name `__func__` inside `gfal_xrootd_3rd_copy_bulk`. -/
def func_bulk : String := "gfal_xrootd_3rd_copy_bulk"

/-- The helper `gfal_xrootd_3rd_init_url` followed by `GetURL()`: the normalised URL with
the `svcClass` parameter when a token is given. -/
def gfal_xrootd_3rd_init_url (env : CopyEnv) (url : CStr) (token : Option CStr) : CStr :=
  env.GetURL (env.normalize_url url) token

/-- The body of the job loop of `gfal_xrootd_3rd_copy_bulk` for one request:
the job added to the copy process, or the batch error set when the default
checksum type cannot be read. `checksum` is `checksums[i]`, read only when
checksum verification is requested. -/
def build_job (env : CopyEnv) (src dst checksum : CStr) : Except GError TransferJob :=
  let job : TransferJob :=
    { source := gfal_xrootd_3rd_init_url env src env.src_spacetoken
      target := gfal_xrootd_3rd_init_url env dst env.dst_spacetoken
      force := env.replace_existing_file
      posc := true
      thirdParty := "only".toList
      tpcTimeout := env.timeout
      checkSumMode := none
      checkSumType := none
      checkSumPreset := none }
  if env.checksum_check then
    let scanned := sscanf_s_colon_s checksum [] []
    let checksumValue := scanned.2
    if scanned.1 = [] ∨ checksumValue = [] then
      match env.default_checksum with
      | Except.error internalError =>
        Except.error
          { domain := xrootd_domain
            code := internalError.code
            message := "[" ++ func_bulk ++ "] " ++ internalError.message }
      | Except.ok defaultChecksumType =>
        let checksumType := strncpy defaultChecksumType 64
        Except.ok
          { job with
            checkSumMode := some (env.checksum_mode.getD "end2end".toList)
            checkSumType := some (env.predefined_checksum_type_to_lower checksumType)
            checkSumPreset := some checksumValue }
    else
      Except.ok
        { job with
          checkSumMode := some (env.checksum_mode.getD "end2end".toList)
          checkSumType := some (env.predefined_checksum_type_to_lower scanned.1)
          checkSumPreset := some checksumValue }
  else
    Except.ok job

/-- The job loop `for (i = 0; i < nbfiles; ++i)`, from index `i` with `k`
requests left: the jobs added in order, or the error of the first request
whose job cannot be built (the function returns there). -/
def build_jobs (env : CopyEnv) (srcs dsts checksums : Nat → CStr) :
    Nat → Nat → Except GError (List TransferJob)
  | _, 0 => Except.ok []
  | i, k + 1 =>
    match build_job env (srcs i) (dsts i) (checksums i) with
    | Except.error e => Except.error e
    | Except.ok j =>
      match build_jobs env srcs dsts checksums (i + 1) k with
      | Except.error e => Except.error e
      | Except.ok js => Except.ok (j :: js)

/-- The jobs of the copy process when `Prepare()` is called: the transfers in
order, then the configuration job with the configured parallelism degree
(default 20). -/
def engine_jobs (env : CopyEnv) (jobs : List TransferJob) : List CopyJob :=
  jobs.map CopyJob.transfer ++ [CopyJob.configuration (env.parallel_copies.getD 20)]

/-! ## Bulk copy orchestrator -/

/-- The error set when `Prepare()` fails. -/
def prepare_error (env : CopyEnv) (status : XRootDStatus) : GError :=
  { domain := xrootd_domain
    code := env.xrootd_errno_to_posix_errno status.errNo
    message := "[" ++ func_bulk ++ "] Error on XrdCl::CopyProcess::Prepare(): " ++ env.ToStr status }

/-- The batch error set when `Run()` fails on a batch of one request. -/
def run_error (env : CopyEnv) (status : XRootDStatus) : GError :=
  { domain := xrootd_domain
    code := env.xrootd_errno_to_posix_errno status.errNo
    message := "[" ++ func_bulk ++ "] Error on XrdCl::CopyProcess::Run(): " ++ env.ToStr status }

/-- The error set in slot `i` of the per-file array when job `i` ended with a
status that is not OK. -/
def file_error (env : CopyEnv) (status : XRootDStatus) : GError :=
  { domain := xrootd_domain
    code := env.xrootd_errno_to_posix_errno status.errNo
    message := "[" ++ func_bulk ++ "] Error on XrdCl::CopyProcess::Run(): " ++ env.ToStr status }

/-- One turn of the reconciliation loop: reads the status of job `i` and, when
it is not OK, sets slot `i` and increments `n_failed`. -/
def reconcile_step (env : CopyEnv) (results : Nat → XRootDStatus)
    (st : Int × List (Option GError)) (i : Nat) : Int × List (Option GError) :=
  let status := results i
  if !status.IsOK then (int32 (st.1 + 1), st.2.set i (some (file_error env status)))
  else st

/-- The reconciliation loop over `i = 0 .. nbfiles - 1`, started with
`n_failed = 0` and the zeroed array of `g_new0(GError*, nbfiles)`. -/
def reconcile (env : CopyEnv) (results : Nat → XRootDStatus) (nbfiles : Nat) :
    Int × List (Option GError) :=
  (List.range nbfiles).foldl (reconcile_step env results) (0, List.replicate nbfiles none)

/-- The slot the reconciliation loop leaves for a job whose status is `status`:
`NULL` when it is OK, the file error otherwise. -/
def slot_of (env : CopyEnv) (status : XRootDStatus) : Option GError :=
  if status.IsOK then none else some (file_error env status)

/-- What `gfal_xrootd_3rd_copy_bulk` leaves to its caller: the return value,
`*op_error`, `*file_errors` (`none` when the array was not allocated) and the
engine calls made, in order. -/
structure BulkOutcome where
  ret : Int
  op_error : Option GError
  file_errors : Option (List (Option GError))
  calls : List EngineCall
  deriving DecidableEq, Repr

/-- The orchestrator `gfal_xrootd_3rd_copy_bulk`. The arrays `srcs`, `dsts` and `checksums`
are given by their element at each index; `*op_error` is `NULL` on entry. -/
def gfal_xrootd_3rd_copy_bulk (env : CopyEnv) (eng : CopyProcess) (nbfiles : Nat)
    (srcs dsts checksums : Nat → CStr) : BulkOutcome :=
  match build_jobs env srcs dsts checksums 0 nbfiles with
  | Except.error e => { ret := -1, op_error := some e, file_errors := none, calls := [] }
  | Except.ok jobs =>
    let copy_process := engine_jobs env jobs
    let status := eng.Prepare copy_process
    if !status.IsOK then
      { ret := -1, op_error := some (prepare_error env status), file_errors := none
        calls := [EngineCall.Prepare] }
    else
      let status := eng.Run copy_process
      if nbfiles = 1 ∧ !status.IsOK then
        { ret := -1, op_error := some (run_error env status), file_errors := none
          calls := [EngineCall.Prepare, EngineCall.Run] }
      else
        let r := reconcile env (eng.result_status copy_process) nbfiles
        { ret := int32 (-r.1), op_error := none, file_errors := some r.2
          calls := [EngineCall.Prepare, EngineCall.Run] }

/-- The buffer `checksumConcat` of `gfal_xrootd_3rd_copy`: the user-defined checksum type
(a buffer of 64 bytes) and value (512 bytes) printed as `"%s:%s"` into 576
bytes. -/
def checksumConcat (env : CopyEnv) : CStr :=
  let checksumType := g_strlcpy env.user_defined_checksum.1 64
  let checksumValue := g_strlcpy env.user_defined_checksum.2 512
  (checksumType ++ [':'] ++ checksumValue).take 575

/-- The progress record `gfalt_hook_transfer_plugin_t` (`int status`, `size_t` rates and
byte count, `time_t` transfer time; `size_t` and `time_t` are 64 bits wide). A
field is `none` while it still holds the indeterminate value of storage that
was never written. -/
structure gfalt_hook_transfer_plugin_t where
  status : Option Int
  average_baudrate : Option Nat
  instant_baudrate : Option Nat
  transfer_time : Option Int
  bytes_transfered : Option Nat
  deriving DecidableEq, Repr

/-- The members of `CopyFeedback` that the callbacks read or write. `startTime`
is a `time_t` in seconds; `monitorCallback` tells whether the pointer is
non-`NULL`. -/
structure CopyFeedback where
  monitorCallback : Bool
  status : gfalt_hook_transfer_plugin_t
  startTime : Int
  source : CStr
  destination : CStr
  deriving DecidableEq, Repr

/-- The constructor `CopyFeedback::CopyFeedback`. Its initialiser list names `context`,
`params` and `startTime(0)`; the body sets `monitorCallback` and wraps the
address of `status` in `monitorCallbackData`. The member `status` is not
written, and the two strings are empty. -/
def CopyFeedback.new (env : CopyEnv) : CopyFeedback :=
  { monitorCallback := env.monitor_callback
    status :=
      { status := none, average_baudrate := none, instant_baudrate := none
        transfer_time := none, bytes_transfered := none }
    startTime := 0
    source := []
    destination := [] }

/-- The hook `CopyFeedback::BeginJob` called at time `now` (the value of `time(NULL)`);
the lifecycle event it triggers is not part of the state. -/
def CopyFeedback.BeginJob (fb : CopyFeedback) (now : Int) (source destination : CStr) :
    CopyFeedback :=
  { fb with startTime := now, source := source, destination := destination }

/-- One invocation of the monitoring callback: the snapshot read through
`monitorCallbackData` and the two URLs. -/
structure MonitorCall where
  snapshot : gfalt_hook_transfer_plugin_t
  source : CStr
  destination : CStr
  deriving DecidableEq, Repr

/-- The hook `CopyFeedback::JobProgress` called at time `now` with `bytesProcessed`
(a `uint64_t`). Gives the state after the call and the monitoring call made,
if any. The division is the unsigned 64-bit one, taken only when
`elapsed > 0`. -/
def CopyFeedback.JobProgress (fb : CopyFeedback) (now : Int) (bytesProcessed : Nat)
    (_bytesTotal : Nat) : CopyFeedback × Option MonitorCall :=
  if fb.monitorCallback then
    let elapsed := now - fb.startTime
    let s1 : gfalt_hook_transfer_plugin_t :=
      { fb.status with
        status := some 0
        bytes_transfered := some bytesProcessed
        transfer_time := some elapsed }
    let s2 : gfalt_hook_transfer_plugin_t :=
      if elapsed > 0 then
        { s1 with average_baudrate := some (bytesProcessed / elapsed.toNat) }
      else s1
    let s3 : gfalt_hook_transfer_plugin_t :=
      { s2 with instant_baudrate := s2.average_baudrate }
    ({ fb with status := s3 },
      some { snapshot := s3, source := fb.source, destination := fb.destination })
  else
    (fb, none)

/-! ## Directory listing cursor -/

/-- The stat record `XrdCl::StatInfo`: size (`uint64_t`), flag word (`uint32_t`) and
modification time (`uint64_t`). -/
structure StatInfo where
  size : Nat
  flags : Nat
  modTime : Nat
  deriving DecidableEq, Repr

/-- The flag `XrdCl::StatInfo::XBitSet`. -/
def XBitSet : Nat := 1
/-- The flag `XrdCl::StatInfo::IsDir`. -/
def IsDir : Nat := 2
/-- The flag `XrdCl::StatInfo::IsReadable`. -/
def IsReadable : Nat := 16
/-- The flag `XrdCl::StatInfo::IsWritable`. -/
def IsWritable : Nat := 32

/-- The test `StatInfo::TestFlags(f)`: some bit of `f` is set in the flag word. -/
def StatInfo.TestFlags (s : StatInfo) (f : Nat) : Bool := (s.flags &&& f) != 0

/-- The file type bit `S_IFDIR` (octal 040000). -/
def S_IFDIR : Nat := 0o040000
/-- The bits `S_IRUSR | S_IRGRP | S_IROTH` (octal 0444). -/
def S_IRALL : Nat := 0o400 ||| 0o040 ||| 0o004
/-- The bits `S_IWUSR | S_IWGRP | S_IWOTH` (octal 0222). -/
def S_IWALL : Nat := 0o200 ||| 0o020 ||| 0o002
/-- The bits `S_IXUSR | S_IXGRP | S_IXOTH` (octal 0111). -/
def S_IXALL : Nat := 0o100 ||| 0o010 ||| 0o001

/-- The two's complement value of a signed 64-bit integer (`off_t`, `time_t`)
that is assigned the number `x`. -/
def int64 (x : Int) : Int :=
  (x + 9223372036854775808) % 18446744073709551616 - 9223372036854775808

/-- The fields of `struct stat` that the plugin writes: `st_size` is an `off_t`
and `st_mtime` a `time_t`, both signed and 64 bits wide; `st_mode` is an
unsigned `mode_t`. -/
structure stat_t where
  st_size : Int
  st_mtime : Int
  st_mode : Nat
  deriving DecidableEq, Repr

/-- The conversion `DirListHandler::StatInfo2Stat`. The unsigned 64-bit `GetSize()` and
`GetModTime()` are assigned to the signed `st_size` and `st_mtime`. -/
def StatInfo2Stat (stinfo : StatInfo) : stat_t :=
  let m0 : Nat := 0
  let m1 := if stinfo.TestFlags IsDir then m0 ||| S_IFDIR else m0
  let m2 := if stinfo.TestFlags IsReadable then m1 ||| S_IRALL else m1
  let m3 := if stinfo.TestFlags IsWritable then m2 ||| S_IWALL else m2
  let m4 := if stinfo.TestFlags XBitSet then m3 ||| S_IXALL else m3
  { st_size := int64 stinfo.size, st_mtime := int64 stinfo.modTime, st_mode := m4 }

/-- One entry of `XrdCl::DirectoryList`: its name and the stat info the listing
carried for it, `none` when `GetStatInfo()` is `NULL`. -/
structure ListEntry where
  name : CStr
  statInfo : Option StatInfo
  deriving DecidableEq, Repr

/-- The fields of `struct dirent` that the plugin writes. -/
structure dirent where
  d_name : CStr
  d_reclen : Nat
  d_type : Nat
  deriving DecidableEq, Repr

/-- The entry type `DT_DIR`. -/
def DT_DIR : Nat := 4
/-- The entry type `DT_REG`. -/
def DT_REG : Nat := 8
/-- The size of `dirent::d_name`, 256 bytes. -/
def D_NAME_SIZE : Nat := 256

/-- The file system client of the listing: the answer of the synchronous
`fs.Stat(path, stinfo)` and the text `XRootDStatus::ToString()`. -/
structure FileSystem where
  Stat : CStr → XRootDStatus × StatInfo
  ToString : XRootDStatus → String

/-- The members of `DirListHandler`; `path` is `url.GetPath()`. -/
structure DirListHandler where
  path : CStr
  entries : List ListEntry
  dbuffer : dirent
  done : Bool
  errcode : Int
  errstr : String
  deriving DecidableEq, Repr

/-- The constructor `DirListHandler::DirListHandler`. -/
def DirListHandler.new (path : CStr) : DirListHandler :=
  { path := path, entries := [], dbuffer := { d_name := [], d_reclen := 0, d_type := 0 }
    done := false, errcode := 0, errstr := "" }

/-- The callback `DirListHandler::HandleResponse`; `response` is the directory list of
the answer, `none` when the pointer is `NULL`. -/
def DirListHandler.HandleResponse (fs : FileSystem) (h : DirListHandler)
    (status : XRootDStatus) (response : Option (List ListEntry)) : DirListHandler :=
  if status.IsOK then
    match response with
    | some list => { h with entries := h.entries ++ list, done := true }
    | none => { h with done := true }
  else
    { h with errcode := status.code, errstr := fs.ToString status, done := true }

/-- What one `Get` leaves: the entry returned (`none` for `NULL`), the content
of `*st` after the call (`none` when `st` is `NULL`), the handler after the
call and the paths of the synchronous stat calls made. -/
structure GetResult where
  entry : Option dirent
  st : Option stat_t
  handler : DirListHandler
  stat_calls : List CStr
  deriving DecidableEq, Repr

/-- The part of `DirListHandler::Get` after the wait, on a handler whose
response has arrived. -/
def DirListHandler.GetReady (fs : FileSystem) (h : DirListHandler) (st : Option stat_t) :
    GetResult :=
  match h.entries with
  | [] => { entry := none, st := st, handler := h, stat_calls := [] }
  | entry :: rest =>
    let stinfo := entry.statInfo
    let d_name := g_strlcpy entry.name D_NAME_SIZE
    let d_type :=
      match stinfo with
      | some si => if si.TestFlags IsDir then DT_DIR else DT_REG
      | none => DT_REG
    let dbuffer : dirent := { d_name := d_name, d_reclen := d_name.length, d_type := d_type }
    let h1 : DirListHandler := { h with entries := rest, dbuffer := dbuffer }
    match st with
    | none => { entry := some dbuffer, st := none, handler := h1, stat_calls := [] }
    | some st0 =>
      match stinfo with
      | some si =>
        { entry := some dbuffer, st := some (StatInfo2Stat si), handler := h1, stat_calls := [] }
      | none =>
        let fullPath := h.path ++ ['/'] ++ dbuffer.d_name
        let answer := fs.Stat fullPath
        if !answer.1.IsOK then
          { entry := none, st := some st0
            handler := { h1 with errcode := answer.1.code, errstr := fs.ToString answer.1 }
            stat_calls := [fullPath] }
        else
          { entry := some dbuffer, st := some (StatInfo2Stat answer.2), handler := h1
            stat_calls := [fullPath] }

/-- The method `DirListHandler::Get(st)`. When the response has not arrived it waits up
to 60 seconds; `arrival` is the response delivered to `HandleResponse` during
that wait, `none` when the wait times out. -/
def DirListHandler.Get (fs : FileSystem) (h : DirListHandler)
    (arrival : Option (XRootDStatus × Option (List ListEntry))) (st : Option stat_t) :
    GetResult :=
  if !h.done then
    match arrival with
    | none => { entry := none, st := st, handler := h, stat_calls := [] }
    | some a => DirListHandler.GetReady fs (DirListHandler.HandleResponse fs h a.1 a.2) st
  else
    DirListHandler.GetReady fs h st

/-- What `gfal_xrootd_readdirG` and `gfal_xrootd_readdirppG` leave: the entry
returned, `*st`, `*err`, the handler behind the directory handle and the
synchronous stat calls made. -/
structure ReaddirResult where
  entry : Option dirent
  st : Option stat_t
  err : Option GError
  handler : Option DirListHandler
  stat_calls : List CStr
  deriving DecidableEq, Repr

/-- The common body of the two readdir entry points, for the function name
`func` and the `st` passed to `Get`. `handler` is the descriptor of the
directory handle (`none` for `NULL`); `errno` is the ambient error number. -/
def readdir_body (func : String) (fs : FileSystem) (errno : Int)
    (handler : Option DirListHandler)
    (arrival : Option (XRootDStatus × Option (List ListEntry))) (st : Option stat_t) :
    ReaddirResult :=
  match handler with
  | none =>
    { entry := none, st := st
      err := some { domain := xrootd_domain, code := errno
                    message := "[" ++ func ++ "] Bad dir handle" }
      handler := none, stat_calls := [] }
  | some h =>
    let r := DirListHandler.Get fs h arrival st
    if r.entry.isNone ∧ r.handler.errcode ≠ 0 then
      { entry := none, st := r.st
        err := some { domain := xrootd_domain, code := r.handler.errcode
                      message := "[" ++ func ++ "] Failed reading directory: " ++ r.handler.errstr }
        handler := some r.handler, stat_calls := r.stat_calls }
    else
      { entry := r.entry, st := r.st, err := none, handler := some r.handler
        stat_calls := r.stat_calls }

/-- The entry point `gfal_xrootd_readdirG`: `Get()` with no stat buffer. -/
def gfal_xrootd_readdirG (fs : FileSystem) (errno : Int) (handler : Option DirListHandler)
    (arrival : Option (XRootDStatus × Option (List ListEntry))) : ReaddirResult :=
  readdir_body "gfal_xrootd_readdirG" fs errno handler arrival none

/-- The entry point `gfal_xrootd_readdirppG`: `Get(st)` with the caller's stat buffer,
whose content on entry is `st`. -/
def gfal_xrootd_readdirppG (fs : FileSystem) (errno : Int) (handler : Option DirListHandler)
    (arrival : Option (XRootDStatus × Option (List ListEntry))) (st : stat_t) : ReaddirResult :=
  readdir_body "gfal_xrootd_readdirppG" fs errno handler arrival (some st)

/-! ## Checksum query -/

/-- The error number `ENOTSUP` (95 on Linux). -/
def ENOTSUP : Int := 95

/-- What the host and the server answer during one checksum call.
`QueryChksum url buffer length` is the return value of
`XrdPosixXrootd::QueryChksum` and the content of the buffer after it; `errno`
is the ambient error number read when an error is set. -/
structure ChecksumEnv where
  normalize_url : CStr → CStr
  predefinedChecksumTypeToLower : CStr → CStr
  QueryChksum : CStr → CStr → Nat → Int × CStr
  errno : Int
  /-- The content the libc leaves in the checksum buffer when `strcpy` is called
  with a source and a destination that overlap, for the type part and the value
  part of the reply. The C standard leaves that behaviour undefined, so the
  content is not determined by the program. -/
  overlapped_strcpy : CStr → CStr → CStr

/-- What `gfal_xrootd_checksumG` leaves: the return value, `*err`, the content
of the checksum buffer and the URLs of the checksum queries sent. -/
structure ChecksumOutcome where
  ret : Int
  err : Option GError
  checksum_buffer : CStr
  queries : List CStr
  deriving DecidableEq, Repr

/-- The name `__func__` inside `gfal_xrootd_checksumG`. -/
def func_checksum : String := "gfal_xrootd_checksumG"

/-- The single quote character of the mismatch message. -/
def quote : String := String.singleton (Char.ofNat 39)

/-- The entry point `gfal_xrootd_checksumG`; `checksum_buffer` is the content of the
caller's buffer on entry. After `*space = 0` the buffer holds the type part,
a NUL and the value part; `strcpy(checksum_buffer, space + 1)` then copies the
value part and its NUL to the start of the same buffer. The two areas are
disjoint exactly when the value is no longer than the type, and then the
buffer holds the value; otherwise they overlap and the buffer holds what the
libc leaves (`overlapped_strcpy`). -/
def gfal_xrootd_checksumG (env : ChecksumEnv) (url check_type checksum_buffer : CStr)
    (buffer_length : Nat) (start_offset : Int) (data_length : Nat) : ChecksumOutcome :=
  let sanitizedUrl := env.normalize_url url
  let lowerChecksumType := env.predefinedChecksumTypeToLower check_type
  if start_offset ≠ 0 ∨ data_length ≠ 0 then
    { ret := -1
      err := some { domain := xrootd_domain, code := ENOTSUP
                    message := "[" ++ func_checksum ++ "] XROOTD does not support partial checksums" }
      checksum_buffer := checksum_buffer, queries := [] }
  else
    let q := env.QueryChksum sanitizedUrl checksum_buffer buffer_length
    if q.1 < 0 then
      { ret := -1
        err := some { domain := xrootd_domain, code := env.errno
                      message := "[" ++ func_checksum ++ "] Could not get the checksum" }
        checksum_buffer := q.2, queries := [sanitizedUrl] }
    else if ¬ (' ' ∈ q.2) then
      { ret := -1
        err := some { domain := xrootd_domain, code := env.errno
                      message := "[" ++ func_checksum ++ "] Could not get the checksum (Wrong format)" }
        checksum_buffer := q.2, queries := [sanitizedUrl] }
    else
      let type := q.2.takeWhile (fun c => c != ' ')
      let value := (q.2.dropWhile (fun c => c != ' ')).tail
      if strncmp type lowerChecksumType lowerChecksumType.length ≠ 0 then
        { ret := -1
          err := some { domain := xrootd_domain, code := env.errno
                        message := "[" ++ func_checksum ++ "] Got " ++ quote ++ String.mk type ++ quote
                          ++ " while expecting " ++ quote ++ String.mk lowerChecksumType ++ quote }
          checksum_buffer := type, queries := [sanitizedUrl] }
      else
        { ret := 0, err := none
          checksum_buffer :=
            if value.length ≤ type.length then value else env.overlapped_strcpy type value
          queries := [sanitizedUrl] }

/-! ## Concrete inputs -/

/-- The status `XRootDStatus()`: OK. -/
def stOK : XRootDStatus := { status := 0, code := 0, errNo := 0, message := "" }

/-- An error status (`stError`) with code `errOperationExpired` and the given
error number. -/
def stError (errNo : Nat) : XRootDStatus :=
  { status := 1, code := 206, errNo := errNo, message := "[ERROR] Operation expired" }

/-- Modelled from the spec: `predefined_checksum_type_to_lower` and
`predefinedChecksumTypeToLower` are defined in `gfal_xrootd_plugin_utils`, which
is not under `src/`; the spec says the checksum type is lower-cased before it
is handed to the engine. Used only to instantiate the examples. -/
def lowerAscii (s : CStr) : CStr := s.map Char.toLower

/-- A host for the examples: no checksum verification, no space tokens, a
monitoring callback, the identity for URL normalisation and error numbers. -/
def exEnv : CopyEnv :=
  { checksum_check := false
    src_spacetoken := none
    dst_spacetoken := none
    replace_existing_file := false
    timeout := 3600
    monitor_callback := true
    user_defined_checksum := ([], [])
    default_checksum := Except.ok "ADLER32".toList
    checksum_mode := none
    parallel_copies := none
    normalize_url := fun u => u
    GetURL := fun u _ => u
    predefined_checksum_type_to_lower := lowerAscii
    xrootd_errno_to_posix_errno := fun n => (n : Int)
    ToStr := fun s => s.message
    prefix_of := fun f => "[" ++ f ++ "]" }

/-- The same host with checksum verification requested. -/
def exEnvChecksum : CopyEnv := { exEnv with checksum_check := true }

/-- The same host with checksum verification requested and no default
checksum type configured. -/
def exEnvNoDefault : CopyEnv :=
  { exEnv with
    checksum_check := true
    default_checksum := Except.error { domain := "gfal2", code := 2, message := "key not found" } }

/-- A source URL. -/
def exSrc : CStr := "root://a.example//f".toList

/-- A destination URL. -/
def exDst : CStr := "root://b.example//f".toList

/-- The job built for `exSrc` and `exDst` by `exEnv`. -/
def exJob : TransferJob :=
  { source := exSrc, target := exDst, force := false, posc := true
    thirdParty := "only".toList, tpcTimeout := 3600
    checkSumMode := none, checkSumType := none, checkSumPreset := none }

/-- An engine whose `Prepare()` succeeds, whose `Run()` fails, and in which
jobs 0 and 2 end with an error status. -/
def exEngineRunFails : CopyProcess :=
  { Prepare := fun _ => stOK
    Run := fun _ => stError 3011
    result_status := fun _ i => if i = 1 then stOK else stError 3011 }

/-- An engine whose `Prepare()` fails. -/
def exEnginePrepareFails : CopyProcess :=
  { Prepare := fun _ => stError 3005
    Run := fun _ => stOK
    result_status := fun _ _ => stOK }

/-- A progress bridge with a monitoring callback, after `BeginJob` at time 1000. -/
def exFeedback : CopyFeedback := (CopyFeedback.new exEnv).BeginJob 1000 exSrc exDst

/-- A checksum host: the identity for URLs, ASCII lower-casing of the type, a
server that answers `adler32 0a1b2c3d` (the examples that use it do not reach
the copy of the value). -/
def exChecksumEnv : ChecksumEnv :=
  { normalize_url := fun u => u
    predefinedChecksumTypeToLower := lowerAscii
    QueryChksum := fun _ _ _ => (17, "adler32 0a1b2c3d".toList)
    errno := 0
    overlapped_strcpy := fun _ _ => [] }

/-- A file system client whose synchronous stat always fails. -/
def exFsStatFails : FileSystem :=
  { Stat := fun _ => (stError 3011, { size := 0, flags := 0, modTime := 0 })
    ToString := fun s => s.message }

/-- A file system client whose synchronous stat answers a readable regular file of 42 bytes. -/
def exFsStatOk : FileSystem :=
  { Stat := fun _ => (stOK, { size := 42, flags := 16, modTime := 7 })
    ToString := fun s => s.message }

/-- A stat info whose size is the largest `uint64_t`, 2^64 - 1. -/
def exStatInfoHuge : StatInfo := { size := 18446744073709551615, flags := 16, modTime := 7 }

/-- A stat info of a readable and writable directory of 4096 bytes. -/
def exStatInfoDir : StatInfo := { size := 4096, flags := 50, modTime := 1700000000 }

/-- The content of the caller's stat buffer before a call. -/
def exStat0 : stat_t := { st_size := 0, st_mtime := 0, st_mode := 0 }

/-- A listing of `/dir` whose response arrived with two entries: `a` without
inline stat info, then the directory `b` with inline stat info. -/
def exListing : DirListHandler :=
  DirListHandler.HandleResponse exFsStatFails (DirListHandler.new "/dir".toList) stOK
    (some [{ name := ['a'], statInfo := none },
           { name := ['b'], statInfo := some { size := 0, flags := 18, modTime := 5 } }])

/-- The handler `exListing` after a failed readdir-with-stat on `a` and a
successful readdir of `b`: resolved, no pending entry, and the error code of
the failed stat still recorded. -/
def exListingDrained : DirListHandler :=
  { path := "/dir".toList
    entries := []
    dbuffer := { d_name := ['b'], d_reclen := 1, d_type := 4 }
    done := true
    errcode := 206
    errstr := "[ERROR] Operation expired" }

/-- A resolved listing of `/dir` whose only entry has a name of 256 bytes and
no inline stat info. -/
def exListingLongName : DirListHandler :=
  DirListHandler.HandleResponse exFsStatOk (DirListHandler.new "/dir".toList) stOK
    (some [{ name := List.replicate 256 'a', statInfo := none }])

/-- A checksum host whose server answers `adler32x 0a1b2c3d`: a type that
starts with `adler32` and is not equal to it. -/
def exChecksumEnvLongType : ChecksumEnv :=
  { normalize_url := fun u => u
    predefinedChecksumTypeToLower := lowerAscii
    QueryChksum := fun _ _ _ => (18, "adler32x 0a1b2c3d".toList)
    errno := 0
    overlapped_strcpy := fun _ _ => [] }

/-- A SHA-256 value: 64 hexadecimal digits. -/
def exShaValue : CStr :=
  "e3b0c44298fc1c149afbf4c8996fb92427ae41e4649b934ca495991b7852b855".toList

/-- A checksum host whose server answers `sha256`, a space and `exShaValue`,
on a libc whose overlapping `strcpy` leaves `f type value` in the buffer. -/
def exChecksumEnvSha (f : CStr → CStr → CStr) : ChecksumEnv :=
  { normalize_url := fun u => u
    predefinedChecksumTypeToLower := lowerAscii
    QueryChksum := fun _ _ _ => (71, "sha256".toList ++ ' ' :: exShaValue)
    errno := 0
    overlapped_strcpy := f }

/-- The two entries of the listing `exListing`, in engine order. -/
def exEntries : List ListEntry :=
  [{ name := ['a'], statInfo := none },
   { name := ['b'], statInfo := some { size := 0, flags := 18, modTime := 5 } }]

/-! ## Sequences of retrieval calls -/

/-- The directory entry that `Get` writes into `dbuffer` for a listing entry:
the name as copied into the name buffer, its length, and the type taken from
the inline stat info. -/
def dirent_of (e : ListEntry) : dirent :=
  { d_name := g_strlcpy e.name D_NAME_SIZE
    d_reclen := (g_strlcpy e.name D_NAME_SIZE).length
    d_type :=
      match e.statInfo with
      | some si => if si.TestFlags IsDir then DT_DIR else DT_REG
      | none => DT_REG }

/-- The arguments of one `Get` call: the response delivered during its wait
(used only while the response has not arrived) and the stat buffer. -/
abbrev GetArgs := Option (XRootDStatus × Option (List ListEntry)) × Option stat_t

/-- Successive `Get` calls on one handler, each on the handler the previous
call left: the results of the calls, in order. -/
def getSeq (fs : FileSystem) : DirListHandler → List GetArgs → List GetResult
  | _, [] => []
  | h, c :: cs =>
    DirListHandler.Get fs h c.1 c.2 :: getSeq fs (DirListHandler.Get fs h c.1 c.2).handler cs

/-- The handler left by successive `Get` calls. -/
def handlerAfter (fs : FileSystem) : DirListHandler → List GetArgs → DirListHandler
  | h, [] => h
  | h, c :: cs => handlerAfter fs (DirListHandler.Get fs h c.1 c.2).handler cs

/-! ## Lemmas on C strings -/

theorem char_toNat_sub_ne_zero {x y : Char} (h : x ≠ y) :
    ((x.toNat : Int) - (y.toNat : Int)) ≠ 0 := by
  intro h0
  apply h
  have h1 : x.toNat = y.toNat := by omega
  rw [← Char.ofNat_toNat x, ← Char.ofNat_toNat y, h1]

/-- Over a pattern without NUL bytes, `strncmp` over the pattern's length is
zero exactly when the pattern is a prefix of the string. -/
theorem strncmp_eq_zero_iff (p : CStr) (hp : ∀ c ∈ p, c ≠ Char.ofNat 0) :
    ∀ s : CStr, strncmp s p p.length = 0 ↔ p <+: s := by
  induction p with
  | nil => intro s; simp [strncmp]
  | cons c p ih =>
    intro s
    have hc : c ≠ Char.ofNat 0 := hp c (List.mem_cons_self _ _)
    have hp2 : ∀ d ∈ p, d ≠ Char.ofNat 0 := fun d hd => hp d (List.mem_cons_of_mem _ hd)
    cases s with
    | nil =>
      simp only [List.length_cons, strncmp, headByte, List.headD_nil, List.headD_cons]
      rw [if_pos (Ne.symm hc)]
      constructor
      · intro h; exact absurd h (char_toNat_sub_ne_zero (Ne.symm hc))
      · intro h; exact absurd h (by simp)
    | cons x s =>
      simp only [List.length_cons, strncmp, headByte, List.headD_cons, List.tail_cons]
      by_cases hx : x = c
      · subst hx
        simp only [ne_eq, not_true_eq_false, if_false, if_neg hc]
        rw [ih hp2 s]
        constructor
        · intro h; exact (List.cons_prefix_cons).2 ⟨rfl, h⟩
        · intro h; exact ((List.cons_prefix_cons).1 h).2
      · rw [if_pos hx]
        constructor
        · intro h; exact absurd h (char_toNat_sub_ne_zero hx)
        · intro h; exact absurd ((List.cons_prefix_cons).1 h).1.symm hx

theorem strncmp_rootScheme (s : CStr) : strncmp s rootScheme 7 = 0 ↔ rootScheme <+: s := by
  have h := strncmp_eq_zero_iff rootScheme (by decide) s
  simpa [rootScheme] using h

/-! ## Capability filter -/

/-- C1: `gfal_xrootd_3rdcopy_check` is non-zero exactly when the operation
kind is single-file copy or bulk copy and both URLs begin with `root://`; in
every other case it returns 0 (and the non-zero value is 1). -/
theorem gfal_xrootd_3rdcopy_check_iff (src dst : CStr) (check : gfal_url2_check) :
    (gfal_xrootd_3rdcopy_check src dst check ≠ 0 ↔
      ((check = gfal_url2_check.GFAL_FILE_COPY ∨ check = gfal_url2_check.GFAL_BULK_COPY) ∧
        rootScheme <+: src ∧ rootScheme <+: dst)) ∧
    (gfal_xrootd_3rdcopy_check src dst check = 0 ∨
      gfal_xrootd_3rdcopy_check src dst check = 1) := by
  unfold gfal_xrootd_3rdcopy_check
  simp only [strncmp_rootScheme]
  by_cases h1 : check = gfal_url2_check.GFAL_FILE_COPY
  · by_cases hs : rootScheme <+: src ∧ rootScheme <+: dst <;> simp [h1, hs]
  · by_cases h2 : check = gfal_url2_check.GFAL_BULK_COPY
    · by_cases hs : rootScheme <+: src ∧ rootScheme <+: dst <;> simp [h2, hs]
    · simp [h1, h2]

/-! ## Bulk copy orchestrator: reconciliation -/

theorem int32_of_small (x : Int) (h0 : 0 ≤ x) (h1 : x < 2147483648) : int32 x = x := by
  unfold int32; omega

theorem int32_neg_of_small (x : Int) (h0 : 0 ≤ x) (h1 : x < 2147483648) : int32 (-x) = -x := by
  unfold int32; omega

theorem reconcile_upto (env : CopyEnv) (results : Nat → XRootDStatus) (n : Nat)
    (hn : n < 2147483648) :
    ∀ k, k ≤ n →
      (List.range k).foldl (reconcile_step env results) (0, List.replicate n none) =
        ((↑((List.range k).countP (fun i => !(results i).IsOK)) : Int),
          (List.range n).map (fun i => if i < k then slot_of env (results i) else none)) := by
  intro k
  induction k with
  | zero =>
    intro _
    simp only [List.range_zero, List.foldl_nil, List.countP_nil, Nat.not_lt_zero, if_false]
    refine Prod.ext rfl ?_
    apply List.ext_getElem
    · simp
    · intro i h1 h2; simp
  | succ k ih =>
    intro hk
    have hk1 : k ≤ n := by omega
    rw [List.range_succ, List.foldl_append, ih hk1, List.foldl_cons, List.foldl_nil,
      List.countP_append]
    have hc : (List.range k).countP (fun i => !(results i).IsOK) ≤ k := by
      have := List.countP_le_length (fun i => !(results i).IsOK) (l := List.range k)
      simpa using this
    unfold reconcile_step
    by_cases hok : (results k).IsOK = true
    · simp only [hok, Bool.not_true, Bool.false_eq_true, if_false]
      refine Prod.ext ?_ ?_
      · simp [hok]
      · simp only
        apply List.map_congr_left
        intro i _
        by_cases hik : i < k
        · have : i < k + 1 := by omega
          simp [hik, this]
        · by_cases hek : i = k
          · subst hek; simp [slot_of, hok]
          · have : ¬ i < k + 1 := by omega
            simp [hik, this]
    · have hok2 : (results k).IsOK = false := by simpa using hok
      simp only [hok2, Bool.not_false, if_true]
      refine Prod.ext ?_ ?_
      · simp only [List.countP_cons, List.countP_nil, hok2, Bool.not_false, if_true]
        rw [int32_of_small _ (by omega) (by omega)]
        push_cast
        ring
      · simp only
        apply List.ext_getElem
        · simp
        · intro i h1 h2
          simp only [List.length_set, List.length_map, List.length_range] at h1
          rw [List.getElem_set]
          by_cases hek : k = i
          · subst hek
            simp [slot_of, hok2]
          · have h3 : (i < k + 1) = (i < k) := by
              apply propext; omega
            simp [hek, h3]

theorem reconcile_eq (env : CopyEnv) (results : Nat → XRootDStatus) (n : Nat)
    (hn : n < 2147483648) :
    reconcile env results n =
      ((↑((List.range n).countP (fun i => !(results i).IsOK)) : Int),
        (List.range n).map (fun i => slot_of env (results i))) := by
  unfold reconcile
  rw [reconcile_upto env results n hn n (Nat.le_refl n)]
  refine Prod.ext rfl ?_
  apply List.map_congr_left
  intro i hi
  have : i < n := List.mem_range.1 hi
  simp [this]


/-! ## Bulk copy orchestrator: outcomes -/

theorem countP_isSome_slots (env : CopyEnv) (results : Nat → XRootDStatus) (l : List Nat) :
    (l.map (fun i => slot_of env (results i))).countP Option.isSome =
      l.countP (fun i => !(results i).IsOK) := by
  rw [List.countP_map]
  apply List.countP_congr
  intro i _
  cases h : (results i).IsOK <;> simp [slot_of, h]

/-- C2: on a batch of more than one request whose preparation succeeds,
whatever the run call reports, no batch error is set, the per-file array has
one slot per request, slot `i` is set exactly when the status of job `i` is
not OK, and the return value is minus the number of set slots. -/
theorem bulk_multi_reconciles_per_file (env : CopyEnv) (eng : CopyProcess) (nbfiles : Nat)
    (srcs dsts checksums : Nat → CStr) (jobs : List TransferJob)
    (hmulti : 1 < nbfiles) (hint : nbfiles < 2147483648)
    (hbuild : build_jobs env srcs dsts checksums 0 nbfiles = Except.ok jobs)
    (hprep : (eng.Prepare (engine_jobs env jobs)).IsOK = true) :
    (gfal_xrootd_3rd_copy_bulk env eng nbfiles srcs dsts checksums).op_error = none ∧
    (gfal_xrootd_3rd_copy_bulk env eng nbfiles srcs dsts checksums).calls =
      [EngineCall.Prepare, EngineCall.Run] ∧
    ∃ errs : List (Option GError),
      (gfal_xrootd_3rd_copy_bulk env eng nbfiles srcs dsts checksums).file_errors = some errs ∧
      errs.length = nbfiles ∧
      (∀ i, i < nbfiles →
        errs[i]? = some (slot_of env (eng.result_status (engine_jobs env jobs) i)) ∧
        ((errs.getD i none).isSome = true ↔
          (eng.result_status (engine_jobs env jobs) i).IsOK = false)) ∧
      (gfal_xrootd_3rd_copy_bulk env eng nbfiles srcs dsts checksums).ret =
        -((errs.countP Option.isSome : Nat) : Int) ∧
      errs.countP Option.isSome + errs.countP Option.isNone = nbfiles := by
  have hne : nbfiles ≠ 1 := by omega
  have hcount : (List.range nbfiles).countP
      (fun i => !(eng.result_status (engine_jobs env jobs) i).IsOK) ≤ nbfiles := by
    have := List.countP_le_length (fun i => !(eng.result_status (engine_jobs env jobs) i).IsOK)
      (l := List.range nbfiles)
    simpa using this
  have hout : gfal_xrootd_3rd_copy_bulk env eng nbfiles srcs dsts checksums =
      { ret := -((((List.range nbfiles).map
            (fun i => slot_of env (eng.result_status (engine_jobs env jobs) i))).countP
            Option.isSome : Nat) : Int)
        op_error := none
        file_errors := some ((List.range nbfiles).map
            (fun i => slot_of env (eng.result_status (engine_jobs env jobs) i)))
        calls := [EngineCall.Prepare, EngineCall.Run] } := by
    unfold gfal_xrootd_3rd_copy_bulk
    rw [hbuild]
    simp only [hprep, Bool.not_true, Bool.false_eq_true, if_false, hne, false_and]
    rw [reconcile_eq env _ nbfiles hint, countP_isSome_slots]
    simp only
    rw [int32_neg_of_small _ (by omega) (by omega)]
  rw [hout]
  refine ⟨rfl, rfl, _, rfl, by simp, ?_, rfl, ?_⟩
  · intro i hi
    have h1 : ((List.range nbfiles).map
        (fun i => slot_of env (eng.result_status (engine_jobs env jobs) i)))[i]? =
        some (slot_of env (eng.result_status (engine_jobs env jobs) i)) := by
      simp [List.getElem?_range hi]
    refine ⟨h1, ?_⟩
    rw [List.getD_eq_getElem?_getD, h1]
    cases h : (eng.result_status (engine_jobs env jobs) i).IsOK <;> simp [slot_of, h]
  · have h := List.length_eq_countP_add_countP (p := Option.isSome)
      ((List.range nbfiles).map
        (fun i => slot_of env (eng.result_status (engine_jobs env jobs) i)))
    have h2 : List.countP (fun a => decide ¬ (Option.isSome a = true))
        ((List.range nbfiles).map
          (fun i => slot_of env (eng.result_status (engine_jobs env jobs) i))) =
        List.countP Option.isNone ((List.range nbfiles).map
          (fun i => slot_of env (eng.result_status (engine_jobs env jobs) i))) := by
      apply List.countP_congr
      intro a _
      cases a <;> simp
    rw [h2] at h
    simp only [List.length_map, List.length_range] at h
    omega

/-- C4: when `Prepare()` reports a status that is not OK, the orchestrator
returns -1 with one batch error whose code is the POSIX translation of the
status error number, the per-file array is not allocated, and `Run()` is not
called. -/
theorem bulk_prepare_failure_is_batch_error (env : CopyEnv) (eng : CopyProcess) (nbfiles : Nat)
    (srcs dsts checksums : Nat → CStr) (jobs : List TransferJob)
    (hbuild : build_jobs env srcs dsts checksums 0 nbfiles = Except.ok jobs)
    (hprep : (eng.Prepare (engine_jobs env jobs)).IsOK = false) :
    gfal_xrootd_3rd_copy_bulk env eng nbfiles srcs dsts checksums =
      { ret := -1
        op_error := some
          { domain := xrootd_domain
            code := env.xrootd_errno_to_posix_errno (eng.Prepare (engine_jobs env jobs)).errNo
            message := "[" ++ func_bulk ++ "] Error on XrdCl::CopyProcess::Prepare(): " ++
              env.ToStr (eng.Prepare (engine_jobs env jobs)) }
        file_errors := none
        calls := [EngineCall.Prepare] } ∧
    EngineCall.Run ∉ (gfal_xrootd_3rd_copy_bulk env eng nbfiles srcs dsts checksums).calls := by
  have hout : gfal_xrootd_3rd_copy_bulk env eng nbfiles srcs dsts checksums =
      { ret := -1, op_error := some (prepare_error env (eng.Prepare (engine_jobs env jobs)))
        file_errors := none, calls := [EngineCall.Prepare] } := by
    unfold gfal_xrootd_3rd_copy_bulk
    rw [hbuild]
    simp only [hprep, Bool.not_false, if_true]
  rw [hout]
  exact ⟨rfl, by simp⟩


/-- C2 witness: three requests, a run call that fails, jobs 0 and 2 failed. -/
theorem bulk_multi_reconciles_per_file_witness :
    1 < 3 ∧
    (exEngineRunFails.Run (engine_jobs exEnv [exJob, exJob, exJob])).IsOK = false ∧
    (gfal_xrootd_3rd_copy_bulk exEnv exEngineRunFails 3 (fun _ => exSrc) (fun _ => exDst)
      (fun _ => [])).op_error = none ∧
    (gfal_xrootd_3rd_copy_bulk exEnv exEngineRunFails 3 (fun _ => exSrc) (fun _ => exDst)
      (fun _ => [])).calls = [EngineCall.Prepare, EngineCall.Run] ∧
    (gfal_xrootd_3rd_copy_bulk exEnv exEngineRunFails 3 (fun _ => exSrc) (fun _ => exDst)
      (fun _ => [])).ret = -2 ∧
    (gfal_xrootd_3rd_copy_bulk exEnv exEngineRunFails 3 (fun _ => exSrc) (fun _ => exDst)
      (fun _ => [])).file_errors =
        some [some (file_error exEnv (stError 3011)), none,
              some (file_error exEnv (stError 3011))] :=
  have h := bulk_multi_reconciles_per_file exEnv exEngineRunFails 3 (fun _ => exSrc)
    (fun _ => exDst) (fun _ => []) [exJob, exJob, exJob] (by decide) (by decide) rfl rfl
  ⟨by decide, rfl, h.1, h.2.1, rfl, rfl⟩

/-- C4 witness: a batch of two requests on an engine whose `Prepare()` fails. -/
theorem bulk_prepare_failure_is_batch_error_witness :
    (exEnginePrepareFails.Prepare (engine_jobs exEnv [exJob, exJob])).IsOK = false ∧
    EngineCall.Run ∉ (gfal_xrootd_3rd_copy_bulk exEnv exEnginePrepareFails 2 (fun _ => exSrc)
      (fun _ => exDst) (fun _ => [])).calls ∧
    gfal_xrootd_3rd_copy_bulk exEnv exEnginePrepareFails 2 (fun _ => exSrc)
        (fun _ => exDst) (fun _ => []) =
      { ret := -1
        op_error := some
          { domain := xrootd_domain, code := 3005
            message := "[gfal_xrootd_3rd_copy_bulk] Error on XrdCl::CopyProcess::Prepare(): [ERROR] Operation expired" }
        file_errors := none
        calls := [EngineCall.Prepare] } :=
  ⟨rfl, (bulk_prepare_failure_is_batch_error exEnv exEnginePrepareFails 2 (fun _ => exSrc)
    (fun _ => exDst) (fun _ => []) [exJob, exJob] rfl rfl).2,
   (bulk_prepare_failure_is_batch_error exEnv exEnginePrepareFails 2 (fun _ => exSrc)
    (fun _ => exDst) (fun _ => []) [exJob, exJob] rfl rfl).1⟩

theorem dropWhile_head_not (p : Char → Bool) :
    ∀ l : List Char, ∀ c rest, l.dropWhile p = c :: rest → p c = false := by
  intro l
  induction l with
  | nil => intro c rest h; simp at h
  | cons x xs ih =>
    intro c rest h
    by_cases hx : p x = true
    · rw [List.dropWhile_cons_of_pos hx] at h
      exact ih c rest h
    · rw [List.dropWhile_cons_of_neg hx] at h
      have hxc : x = c := (List.cons.inj h).1
      rw [← hxc]
      simpa using hx

theorem scan_s_rest_not_colon (inp tok rest rest1 : CStr)
    (h : scan_s inp = some (tok, rest)) : rest ≠ ':' :: rest1 := by
  unfold scan_s at h
  simp only at h
  split at h
  · exact absurd h (by simp)
  · have h2 := (Prod.mk.inj (Option.some.inj h)).2
    intro hr
    rw [hr] at h2
    have h3 := dropWhile_head_not (fun c => !isspace c) _ ':' rest1 h2
    revert h3
    decide

/-- The second buffer of `sscanf(inp, "%s:%s", t, v)` is never written: the
first `%s` stops only at white space or at the end of the input, so the
literal `:` never matches. -/
theorem sscanf_value_never_assigned (inp t v : CStr) : (sscanf_s_colon_s inp t v).2 = v := by
  unfold sscanf_s_colon_s
  cases h : scan_s inp with
  | none => rfl
  | some p =>
    obtain ⟨tok, rest⟩ := p
    simp only
    split
    · rename_i rest1
      exact absurd rfl (scan_s_rest_not_colon inp tok (':' :: rest1) rest1 h)
    · rfl

/-- C5: with checksum verification requested and the explicit specification
`MD5:abc123`, the job built has the checksum type of the configured default
(`adler32`) and an empty checksum preset, not `md5` and `abc123`; and when no
default is configured the whole call fails with the configuration error, so
the default is consulted. -/
theorem explicit_checksum_spec_is_not_used :
    build_job exEnvChecksum exSrc exDst "MD5:abc123".toList =
      Except.ok
        { exJob with
          checkSumMode := some "end2end".toList
          checkSumType := some "adler32".toList
          checkSumPreset := some [] } ∧
    gfal_xrootd_3rd_copy_bulk exEnvNoDefault exEngineRunFails 1 (fun _ => exSrc)
        (fun _ => exDst) (fun _ => "MD5:abc123".toList) =
      { ret := -1
        op_error := some
          { domain := xrootd_domain, code := 2
            message := "[gfal_xrootd_3rd_copy_bulk] key not found" }
        file_errors := none
        calls := [] } :=
  ⟨rfl, rfl⟩

/-! ## Checksum query -/

/-- C6: a checksum request with a non-zero start offset or a non-zero data
length returns -1 with an `ENOTSUP` error, sends no checksum query and leaves
the output buffer as it was. -/
theorem checksum_partial_range_rejected (env : ChecksumEnv) (url check_type checksum_buffer : CStr)
    (buffer_length : Nat) (start_offset : Int) (data_length : Nat)
    (h : start_offset ≠ 0 ∨ data_length ≠ 0) :
    gfal_xrootd_checksumG env url check_type checksum_buffer buffer_length start_offset
        data_length =
      { ret := -1
        err := some
          { domain := xrootd_domain, code := ENOTSUP
            message := "[gfal_xrootd_checksumG] XROOTD does not support partial checksums" }
        checksum_buffer := checksum_buffer
        queries := [] } := by
  unfold gfal_xrootd_checksumG
  simp only [if_pos h]
  rfl

/-- C6 witness: offset 0 with a data length of 1024 bytes. -/
theorem checksum_partial_range_rejected_witness :
    ((0 : Int) ≠ 0 ∨ (1024 : Nat) ≠ 0) ∧
    (gfal_xrootd_checksumG exChecksumEnv exSrc "ADLER32".toList "old".toList 64 0 1024).queries
      = [] ∧
    (gfal_xrootd_checksumG exChecksumEnv exSrc "ADLER32".toList "old".toList 64 0 1024).ret
      = -1 :=
  have h := checksum_partial_range_rejected exChecksumEnv exSrc "ADLER32".toList "old".toList
    64 0 1024 (Or.inr (by decide))
  ⟨Or.inr (by decide), by rw [h], by rw [h]⟩

/-! ## Progress and cancellation bridge -/

/-- C7: a progress callback with a monitoring callback registered and a
positive elapsed time delivers a snapshot whose average rate is the integer
quotient of the bytes by the elapsed seconds, whose instantaneous rate is the
same, whose byte count is the bytes given and whose transfer time is the
elapsed time. -/
theorem jobProgress_rate (fb : CopyFeedback) (now : Int) (bytesProcessed bytesTotal : Nat)
    (hmon : fb.monitorCallback = true) (helapsed : now - fb.startTime > 0) :
    (fb.JobProgress now bytesProcessed bytesTotal).2 =
      some
        { snapshot :=
            { status := some 0
              average_baudrate := some (bytesProcessed / (now - fb.startTime).toNat)
              instant_baudrate := some (bytesProcessed / (now - fb.startTime).toNat)
              transfer_time := some (now - fb.startTime)
              bytes_transfered := some bytesProcessed }
          source := fb.source
          destination := fb.destination } ∧
    ((bytesProcessed / (now - fb.startTime).toNat : Nat) : Int) =
      (bytesProcessed : Int) / (now - fb.startTime) := by
  constructor
  · unfold CopyFeedback.JobProgress
    simp only [hmon, if_true, helapsed]
  · have h0 : (0 : Int) ≤ now - fb.startTime := by omega
    rw [Int.natCast_div, Int.toNat_of_nonneg h0]

/-- C7 witness: job start at 1000, progress at 1010 with 1,000,000 bytes gives
100,000 bytes per second. -/
theorem jobProgress_rate_witness :
    exFeedback.monitorCallback = true ∧ (1010 : Int) - exFeedback.startTime > 0 ∧
    (exFeedback.JobProgress 1010 1000000 2000000).2 =
      some
        { snapshot :=
            { status := some 0
              average_baudrate := some 100000
              instant_baudrate := some 100000
              transfer_time := some 10
              bytes_transfered := some 1000000 }
          source := exSrc
          destination := exDst } :=
  ⟨rfl, by decide, (jobProgress_rate exFeedback 1010 1000000 2000000 rfl (by decide)).1⟩

/-- With zero elapsed time no division is made: the average rate keeps the
content it had before the callback and the instantaneous rate is a copy of
it. -/
theorem jobProgress_zero_elapsed_keeps_rate (fb : CopyFeedback) (now : Int)
    (bytesProcessed bytesTotal : Nat)
    (hmon : fb.monitorCallback = true) (hzero : now = fb.startTime) :
    (fb.JobProgress now bytesProcessed bytesTotal).2 =
      some
        { snapshot :=
            { status := some 0
              average_baudrate := fb.status.average_baudrate
              instant_baudrate := fb.status.average_baudrate
              transfer_time := some 0
              bytes_transfered := some bytesProcessed }
          source := fb.source
          destination := fb.destination } := by
  unfold CopyFeedback.JobProgress
  subst hzero
  simp [hmon]

/-- C8: the first progress callback of a bridge, delivered in the second in
which the job began, invokes the monitor with an average and an instantaneous
rate that were never written (the constructor does not initialise `status`). -/
theorem first_progress_at_zero_elapsed_rate_unset :
    (exFeedback.JobProgress 1000 4096 8192).2 =
      some
        { snapshot :=
            { status := some 0
              average_baudrate := none
              instant_baudrate := none
              transfer_time := some 0
              bytes_transfered := some 4096 }
          source := exSrc
          destination := exDst } := by
  decide

/-! ## Directory listing cursor -/

/-- On a resolved handler with no pending entry, `Get` returns no entry, makes
no stat call and leaves the handler and the stat buffer as they were. -/
theorem get_exhausted (fs : FileSystem) (h : DirListHandler)
    (arrival : Option (XRootDStatus × Option (List ListEntry))) (st : Option stat_t)
    (hdone : h.done = true) (hempty : h.entries = []) :
    DirListHandler.Get fs h arrival st =
      { entry := none, st := st, handler := h, stat_calls := [] } := by
  unfold DirListHandler.Get DirListHandler.GetReady
  simp [hdone, hempty]

/-- After a readdir-with-stat whose fallback stat failed on `a` (the entry is
popped and not returned) and a readdir that returned `b`, the listing is
resolved and has no pending entry, and the next readdir returns a null entry
with the error of the failed stat. -/
theorem readdir_exhausted_reports_stale_error :
    (gfal_xrootd_readdirppG exFsStatFails 0 (some exListing) none exStat0).entry = none ∧
    (gfal_xrootd_readdirG exFsStatFails 0
        (gfal_xrootd_readdirppG exFsStatFails 0 (some exListing) none exStat0).handler
        none).entry =
      some { d_name := ['b'], d_reclen := 1, d_type := DT_DIR } ∧
    (gfal_xrootd_readdirG exFsStatFails 0
        (gfal_xrootd_readdirppG exFsStatFails 0 (some exListing) none exStat0).handler
        none).handler = some exListingDrained ∧
    exListingDrained.done = true ∧ exListingDrained.entries = [] ∧
    gfal_xrootd_readdirG exFsStatFails 0 (some exListingDrained) none =
      { entry := none
        st := none
        err := some
          { domain := xrootd_domain, code := 206
            message := "[gfal_xrootd_readdirG] Failed reading directory: [ERROR] Operation expired" }
        handler := some exListingDrained
        stat_calls := [] } := by
  refine ⟨rfl, rfl, rfl, rfl, rfl, rfl⟩

/-- On a listing whose response has arrived and whose pending sequence is
empty, readdir and readdir-with-stat return a null entry, make no stat lookup
and leave the handler and the stat buffer unchanged; and when the recorded
error code of the handler is zero they set no error. -/
theorem readdir_exhausted_end_of_sequence (fs : FileSystem) (errno : Int) (h : DirListHandler)
    (arrival : Option (XRootDStatus × Option (List ListEntry))) (st : stat_t)
    (hdone : h.done = true) (hempty : h.entries = []) :
    (gfal_xrootd_readdirG fs errno (some h) arrival).entry = none ∧
    (gfal_xrootd_readdirG fs errno (some h) arrival).stat_calls = [] ∧
    (gfal_xrootd_readdirG fs errno (some h) arrival).handler = some h ∧
    (gfal_xrootd_readdirppG fs errno (some h) arrival st).entry = none ∧
    (gfal_xrootd_readdirppG fs errno (some h) arrival st).stat_calls = [] ∧
    (gfal_xrootd_readdirppG fs errno (some h) arrival st).handler = some h ∧
    (gfal_xrootd_readdirppG fs errno (some h) arrival st).st = some st ∧
    (h.errcode = 0 →
      (gfal_xrootd_readdirG fs errno (some h) arrival).err = none ∧
      (gfal_xrootd_readdirppG fs errno (some h) arrival st).err = none) := by
  unfold gfal_xrootd_readdirG gfal_xrootd_readdirppG readdir_body
  simp only [get_exhausted fs h arrival _ hdone hempty]
  by_cases hc : h.errcode = 0 <;> simp [hc]

/-- An instance of `readdir_exhausted_end_of_sequence`: a resolved listing that carried no
entry. -/
theorem readdir_exhausted_end_of_sequence_instance :
    (DirListHandler.HandleResponse exFsStatOk (DirListHandler.new "/dir".toList) stOK
      (some [])).done = true ∧
    (gfal_xrootd_readdirG exFsStatOk 0
      (some (DirListHandler.HandleResponse exFsStatOk (DirListHandler.new "/dir".toList) stOK
        (some []))) none).err = none :=
  ⟨rfl, ((readdir_exhausted_end_of_sequence exFsStatOk 0
    (DirListHandler.HandleResponse exFsStatOk (DirListHandler.new "/dir".toList) stOK (some []))
    none exStat0 rfl rfl).2.2.2.2.2.2.2 rfl).1⟩

/-- The result of `Get` on a resolved handler is the result of the part after the wait. -/
theorem get_of_done (fs : FileSystem) (h : DirListHandler)
    (arrival : Option (XRootDStatus × Option (List ListEntry))) (st : Option stat_t)
    (hdone : h.done = true) :
    DirListHandler.Get fs h arrival st = DirListHandler.GetReady fs h st := by
  unfold DirListHandler.Get
  simp [hdone]

/-- The popped entry has inline stat info: no stat call, metadata from the inline info. -/
theorem getReady_inline (fs : FileSystem) (h : DirListHandler) (st0 : stat_t)
    (e : ListEntry) (rest : List ListEntry) (si : StatInfo)
    (hentries : h.entries = e :: rest) (hsi : e.statInfo = some si) :
    DirListHandler.GetReady fs h (some st0) =
      { entry := some { d_name := e.name.take 255, d_reclen := (e.name.take 255).length
                        d_type := if si.TestFlags IsDir then DT_DIR else DT_REG }
        st := some (StatInfo2Stat si)
        handler :=
          { h with
            entries := rest
            dbuffer := { d_name := e.name.take 255, d_reclen := (e.name.take 255).length
                         d_type := if si.TestFlags IsDir then DT_DIR else DT_REG } }
        stat_calls := [] } := by
  unfold DirListHandler.GetReady
  rw [hentries]
  simp only [hsi, g_strlcpy, D_NAME_SIZE]

/-- The popped entry has no inline stat info: one stat call, for the directory
path, `/` and the name held by the name buffer; the entry is popped. -/
theorem getReady_lazy (fs : FileSystem) (h : DirListHandler) (st0 : stat_t)
    (e : ListEntry) (rest : List ListEntry)
    (hentries : h.entries = e :: rest) (hsi : e.statInfo = none) :
    (DirListHandler.GetReady fs h (some st0)).stat_calls =
      [h.path ++ ['/'] ++ e.name.take 255] ∧
    (DirListHandler.GetReady fs h (some st0)).handler.entries = rest := by
  unfold DirListHandler.GetReady
  rw [hentries]
  simp only [hsi, g_strlcpy, D_NAME_SIZE]
  split <;> exact ⟨rfl, rfl⟩

/-- C10, as stated, fails: for an entry whose name has 256 bytes and no inline
stat info, the one stat call is issued for the directory path, `/` and the
first 255 bytes of the name, which is not the path formed with the name. -/
theorem get_stat_path_uses_truncated_name :
    exListingLongName.done = true ∧
    exListingLongName.entries = [{ name := List.replicate 256 'a', statInfo := none }] ∧
    (DirListHandler.Get exFsStatOk exListingLongName none (some exStat0)).stat_calls =
      ["/dir".toList ++ ['/'] ++ List.replicate 255 'a'] ∧
    (DirListHandler.Get exFsStatOk exListingLongName none (some exStat0)).stat_calls ≠
      ["/dir".toList ++ ['/'] ++ List.replicate 256 'a'] := by
  have h1 : (DirListHandler.Get exFsStatOk exListingLongName none (some exStat0)).stat_calls =
      ["/dir".toList ++ ['/'] ++ List.replicate 255 'a'] := by
    rw [get_of_done _ _ _ _ rfl]
    rw [(getReady_lazy exFsStatOk exListingLongName exStat0
      { name := List.replicate 256 'a', statInfo := none } [] rfl rfl).1]
    simp only [List.take_replicate]
    rfl
  refine ⟨rfl, rfl, h1, ?_⟩
  rw [h1]
  intro h
  have h2 := congrArg List.length (List.cons.inj h).1
  simp only [List.length_append, List.length_replicate] at h2
  omega

/-- C10, amended: a `Get` that requests metadata on a resolved listing with a
pending entry issues, when the popped entry has no inline stat info, exactly
one synchronous stat call, for the directory path, `/` and the entry name as
copied into the 256-byte name buffer (its first 255 bytes, so the name itself
when it is shorter than 256 bytes), and pops that entry only; when the entry
has inline stat info it issues no stat call, returns the entry and derives the
metadata from the inline info. -/
theorem get_lazy_stat (fs : FileSystem) (h : DirListHandler)
    (arrival : Option (XRootDStatus × Option (List ListEntry))) (st0 : stat_t)
    (e : ListEntry) (rest : List ListEntry)
    (hdone : h.done = true) (hentries : h.entries = e :: rest) :
    (e.statInfo = none →
      (DirListHandler.Get fs h arrival (some st0)).stat_calls =
        [h.path ++ ['/'] ++ e.name.take 255] ∧
      (DirListHandler.Get fs h arrival (some st0)).handler.entries = rest ∧
      (e.name.length < 256 →
        (DirListHandler.Get fs h arrival (some st0)).stat_calls =
          [h.path ++ ['/'] ++ e.name])) ∧
    (∀ si : StatInfo, e.statInfo = some si →
      (DirListHandler.Get fs h arrival (some st0)).stat_calls = [] ∧
      (DirListHandler.Get fs h arrival (some st0)).st = some (StatInfo2Stat si) ∧
      (DirListHandler.Get fs h arrival (some st0)).entry =
        some { d_name := e.name.take 255, d_reclen := (e.name.take 255).length
               d_type := if si.TestFlags IsDir then DT_DIR else DT_REG } ∧
      (DirListHandler.Get fs h arrival (some st0)).handler.entries = rest) := by
  rw [get_of_done fs h arrival _ hdone]
  refine ⟨?_, ?_⟩
  · intro hnone
    have hl := getReady_lazy fs h st0 e rest hentries hnone
    refine ⟨hl.1, hl.2, ?_⟩
    intro hlen
    rw [hl.1, List.take_of_length_le (by omega)]
  · intro si hsi
    rw [getReady_inline fs h st0 e rest si hentries hsi]
    exact ⟨rfl, rfl, rfl, rfl⟩

/-- C10 witness: on `exListing`, whose first entry `a` has no inline stat info,
one stat call is issued, for `/dir/a`. -/
theorem get_lazy_stat_witness :
    exListing.done = true ∧
    (DirListHandler.Get exFsStatOk exListing none (some exStat0)).stat_calls =
      ["/dir/a".toList] :=
  ⟨rfl, ((get_lazy_stat exFsStatOk exListing none exStat0 { name := ['a'], statInfo := none }
    [{ name := ['b'], statInfo := some { size := 0, flags := 18, modTime := 5 } }] rfl rfl).1
    rfl).2.2 (by decide)⟩

/-! ## Stat conversion -/

theorem int64_of_small (x : Nat) (h : x < 9223372036854775808) : int64 x = x := by
  unfold int64; omega

/-- C12, as stated, fails: a size of 2^64 - 1 is not copied unchanged, the
signed `st_size` holds -1. -/
theorem statInfo2Stat_size_wraps :
    (StatInfo2Stat exStatInfoHuge).st_size = -1 ∧
    (StatInfo2Stat exStatInfoHuge).st_size ≠ (exStatInfoHuge.size : Int) := by
  decide

/-- C12, amended: the mode `StatInfo2Stat` produces is the bitwise OR of four
contributions, each present exactly when its flag is set (the directory type
bit 040000, read 0444, write 0222, execute 0111) and no other bit; the size
and the modification time are the signed 64-bit reading of the unsigned
values, so they are copied unchanged when they are below 2^63. -/
theorem statInfo2Stat_mode (si : StatInfo) :
    (StatInfo2Stat si).st_mode =
      ((if si.TestFlags IsDir then 0o040000 else 0) |||
       (if si.TestFlags IsReadable then 0o444 else 0) |||
       (if si.TestFlags IsWritable then 0o222 else 0) |||
       (if si.TestFlags XBitSet then 0o111 else 0)) ∧
    (StatInfo2Stat si).st_size = int64 si.size ∧
    (StatInfo2Stat si).st_mtime = int64 si.modTime ∧
    (si.size < 9223372036854775808 → (StatInfo2Stat si).st_size = (si.size : Int)) ∧
    (si.modTime < 9223372036854775808 → (StatInfo2Stat si).st_mtime = (si.modTime : Int)) := by
  refine ⟨?_, rfl, rfl, fun h => int64_of_small _ h, fun h => int64_of_small _ h⟩
  unfold StatInfo2Stat
  cases si.TestFlags IsDir <;> cases si.TestFlags IsReadable <;>
    cases si.TestFlags IsWritable <;> cases si.TestFlags XBitSet <;> rfl

/-- C12 witness: a readable and writable directory of 4096 bytes gets mode
040666, size 4096 and its modification time. -/
theorem statInfo2Stat_mode_witness :
    exStatInfoDir.size < 9223372036854775808 ∧
    (StatInfo2Stat exStatInfoDir).st_size = 4096 ∧
    (StatInfo2Stat exStatInfoDir).st_mode = 0o040666 :=
  ⟨by decide, (statInfo2Stat_mode exStatInfoDir).2.2.2.1 (by decide), by decide⟩

/-! ## Checksum query: the reply -/

theorem takeWhile_ne_space (T V : CStr) (hT : ' ' ∉ T) :
    (T ++ ' ' :: V).takeWhile (fun c => c != ' ') = T ∧
    (T ++ ' ' :: V).dropWhile (fun c => c != ' ') = ' ' :: V := by
  induction T with
  | nil => simp
  | cons x xs ih =>
    have hx : x ≠ ' ' := fun h => hT (by simp [h])
    have hxs : ' ' ∉ xs := fun h => hT (List.mem_cons_of_mem _ h)
    have hb : (x != ' ') = true := by simpa using hx
    simp only [List.cons_append, List.takeWhile_cons, List.dropWhile_cons, hb, if_true]
    exact ⟨by rw [(ih hxs).1], (ih hxs).2⟩

/-- The outcome for a whole-file request whose query succeeds. When the reply
is `T`, a space, `V` with no space in `T`, the call succeeds exactly when the
lower-cased requested type is a prefix of `T`; the buffer then holds `V` when
`V` is no longer than `T`, and what the overlapping `strcpy` leaves otherwise.
A mismatch returns -1 with the mismatch error; a reply with no space is
rejected with the wrong-format error. -/
theorem checksum_reply_type_test (env : ChecksumEnv) (url check_type checksum_buffer : CStr)
    (buffer_length : Nat) (n : Int) (reply : CStr)
    (hq : env.QueryChksum (env.normalize_url url) checksum_buffer buffer_length = (n, reply))
    (hn : 0 ≤ n)
    (hnul : ∀ c ∈ env.predefinedChecksumTypeToLower check_type, c ≠ Char.ofNat 0) :
    (∀ T V : CStr, reply = T ++ ' ' :: V → ' ' ∉ T →
      ((gfal_xrootd_checksumG env url check_type checksum_buffer buffer_length 0 0).ret = 0 ↔
        env.predefinedChecksumTypeToLower check_type <+: T) ∧
      (env.predefinedChecksumTypeToLower check_type <+: T →
        gfal_xrootd_checksumG env url check_type checksum_buffer buffer_length 0 0 =
          { ret := 0, err := none
            checksum_buffer := if V.length ≤ T.length then V else env.overlapped_strcpy T V
            queries := [env.normalize_url url] }) ∧
      (¬ env.predefinedChecksumTypeToLower check_type <+: T →
        (gfal_xrootd_checksumG env url check_type checksum_buffer buffer_length 0 0).ret = -1 ∧
        (gfal_xrootd_checksumG env url check_type checksum_buffer buffer_length 0 0).err.isSome
          = true ∧
        (gfal_xrootd_checksumG env url check_type checksum_buffer buffer_length 0
          0).checksum_buffer = T)) ∧
    (' ' ∉ reply →
      gfal_xrootd_checksumG env url check_type checksum_buffer buffer_length 0 0 =
        { ret := -1
          err := some
            { domain := xrootd_domain, code := env.errno
              message := "[gfal_xrootd_checksumG] Could not get the checksum (Wrong format)" }
          checksum_buffer := reply
          queries := [env.normalize_url url] }) := by
  have hlt : ¬ n < 0 := by omega
  constructor
  · intro T V hreply hT
    have hmem : ' ' ∈ T ++ ' ' :: V := by simp
    have htw := takeWhile_ne_space T V hT
    have hstr := strncmp_eq_zero_iff (env.predefinedChecksumTypeToLower check_type) hnul T
    have hout : gfal_xrootd_checksumG env url check_type checksum_buffer buffer_length 0 0 =
        if strncmp T (env.predefinedChecksumTypeToLower check_type)
            (env.predefinedChecksumTypeToLower check_type).length ≠ 0 then
          { ret := -1
            err := some
              { domain := xrootd_domain, code := env.errno
                message := "[" ++ func_checksum ++ "] Got " ++ quote ++ String.mk T ++ quote
                  ++ " while expecting " ++ quote ++
                  String.mk (env.predefinedChecksumTypeToLower check_type) ++ quote }
            checksum_buffer := T, queries := [env.normalize_url url] }
        else
          { ret := 0, err := none
            checksum_buffer := if V.length ≤ T.length then V else env.overlapped_strcpy T V
            queries := [env.normalize_url url] } := by
      unfold gfal_xrootd_checksumG
      simp only [ne_eq, not_true_eq_false, or_self, if_false, hq, hlt, hreply, hmem,
        htw.1, htw.2, List.tail_cons]
    rw [hout]
    by_cases hp : env.predefinedChecksumTypeToLower check_type <+: T
    · have h0 := hstr.2 hp
      simp [h0, hp]
    · have h0 : strncmp T (env.predefinedChecksumTypeToLower check_type)
          (env.predefinedChecksumTypeToLower check_type).length ≠ 0 := fun h => hp (hstr.1 h)
      simp [h0, hp]
  · intro hno
    unfold gfal_xrootd_checksumG
    simp only [ne_eq, not_true_eq_false, or_self, if_false, hq, hlt, hno, if_true]
    rfl

/-- An instance of `checksum_reply_type_test`: the request is for `ADLER32` and the server
answers `adler32x 0a1b2c3d`; the type only starts with `adler32`, the value is
no longer than the type, the call succeeds and the buffer holds `0a1b2c3d`. -/
theorem checksum_reply_type_test_instance :
    exChecksumEnvLongType.QueryChksum exSrc "old".toList 64 = (18, "adler32x 0a1b2c3d".toList) ∧
    lowerAscii "ADLER32".toList ≠ "adler32x".toList ∧
    gfal_xrootd_checksumG exChecksumEnvLongType exSrc "ADLER32".toList "old".toList 64 0 0 =
      { ret := 0, err := none, checksum_buffer := "0a1b2c3d".toList, queries := [exSrc] } :=
  ⟨rfl, by decide,
    ((checksum_reply_type_test exChecksumEnvLongType exSrc "ADLER32".toList "old".toList 64 18
      "adler32x 0a1b2c3d".toList rfl (by decide) (by decide)).1
      "adler32x".toList "0a1b2c3d".toList rfl (by decide)).2.1 (by decide)⟩

/-- C14: for the request `SHA256` and the reply `sha256`, a space and 64
hexadecimal digits, the call returns 0 and the value is copied by `strcpy`
onto the start of the buffer it is read from: the value (64 bytes) is longer
than the type (6 bytes), the two areas overlap, and the buffer holds what the
libc leaves for an overlapping copy, whatever that is, rather than the value
by construction. -/
theorem checksum_value_copy_overlaps (f : CStr → CStr → CStr) :
    gfal_xrootd_checksumG (exChecksumEnvSha f) exSrc "SHA256".toList [] 128 0 0 =
      { ret := 0, err := none
        checksum_buffer := f "sha256".toList exShaValue
        queries := [exSrc] } ∧
    "sha256".toList.length < exShaValue.length := by
  constructor
  · rfl
  · decide

/-! ## Directory listing cursor: sequences of calls -/

/-- The part of `Get` after the wait, with no stat buffer and a pending entry:
the entry is returned and popped, no stat call is made. -/
theorem getReady_no_stat (fs : FileSystem) (h : DirListHandler)
    (e : ListEntry) (rest : List ListEntry) (hentries : h.entries = e :: rest) :
    DirListHandler.GetReady fs h none =
      { entry := some (dirent_of e), st := none
        handler := { h with entries := rest, dbuffer := dirent_of e }
        stat_calls := [] } := by
  unfold DirListHandler.GetReady dirent_of
  rw [hentries]

/-- The part of `Get` after the wait, with a stat buffer and a pending entry
that carries inline stat info. -/
theorem getReady_inline_entry (fs : FileSystem) (h : DirListHandler) (st0 : stat_t)
    (e : ListEntry) (rest : List ListEntry) (si : StatInfo)
    (hentries : h.entries = e :: rest) (hsi : e.statInfo = some si) :
    DirListHandler.GetReady fs h (some st0) =
      { entry := some (dirent_of e), st := some (StatInfo2Stat si)
        handler := { h with entries := rest, dbuffer := dirent_of e }
        stat_calls := [] } := by
  unfold DirListHandler.GetReady dirent_of
  rw [hentries]
  simp only [hsi]

/-- The part of `Get` after the wait, with a stat buffer, a pending entry
without inline stat info and a fallback stat that succeeds. -/
theorem getReady_stat_ok (fs : FileSystem) (h : DirListHandler) (st0 : stat_t)
    (e : ListEntry) (rest : List ListEntry)
    (hentries : h.entries = e :: rest) (hsi : e.statInfo = none)
    (hok : (fs.Stat (h.path ++ ['/'] ++ e.name.take 255)).1.IsOK = true) :
    DirListHandler.GetReady fs h (some st0) =
      { entry := some (dirent_of e)
        st := some (StatInfo2Stat (fs.Stat (h.path ++ ['/'] ++ e.name.take 255)).2)
        handler := { h with entries := rest, dbuffer := dirent_of e }
        stat_calls := [h.path ++ ['/'] ++ e.name.take 255] } := by
  unfold DirListHandler.GetReady dirent_of
  rw [hentries]
  simp only [hsi, g_strlcpy, D_NAME_SIZE, Nat.add_one_sub_one, hok, Bool.not_true,
    Bool.false_eq_true, if_false]

/-- The part of `Get` after the wait, with a stat buffer, a pending entry
without inline stat info and a fallback stat that fails: no entry is
returned, the stat buffer is untouched, the entry is popped and the error
code and text of the stat are recorded. -/
theorem getReady_stat_fails (fs : FileSystem) (h : DirListHandler) (st0 : stat_t)
    (e : ListEntry) (rest : List ListEntry)
    (hentries : h.entries = e :: rest) (hsi : e.statInfo = none)
    (hfail : (fs.Stat (h.path ++ ['/'] ++ e.name.take 255)).1.IsOK = false) :
    DirListHandler.GetReady fs h (some st0) =
      { entry := none
        st := some st0
        handler :=
          { h with
            entries := rest
            dbuffer := dirent_of e
            errcode := ((fs.Stat (h.path ++ ['/'] ++ e.name.take 255)).1.code : Int)
            errstr := fs.ToString (fs.Stat (h.path ++ ['/'] ++ e.name.take 255)).1 }
        stat_calls := [h.path ++ ['/'] ++ e.name.take 255] } := by
  unfold DirListHandler.GetReady dirent_of
  rw [hentries]
  simp only [hsi, g_strlcpy, D_NAME_SIZE, Nat.add_one_sub_one, hfail, Bool.not_false, if_true]

/-- One `Get` on a resolved handler: the handler stays resolved, the first
pending entry (if any) is removed, an entry that is returned is the one
written for that first pending entry, and the recorded error code is kept or
replaced by the code of a stat that failed. -/
theorem get_done_step (fs : FileSystem) (h : DirListHandler) (c : GetArgs)
    (hdone : h.done = true) :
    (DirListHandler.Get fs h c.1 c.2).handler.done = true ∧
    (DirListHandler.Get fs h c.1 c.2).handler.entries = h.entries.tail ∧
    (∀ d, (DirListHandler.Get fs h c.1 c.2).entry = some d →
      h.entries.head?.map dirent_of = some d) ∧
    ((DirListHandler.Get fs h c.1 c.2).handler.errcode = h.errcode ∨
      ∃ p, (fs.Stat p).1.IsOK = false ∧
        (DirListHandler.Get fs h c.1 c.2).handler.errcode = ((fs.Stat p).1.code : Int)) := by
  cases hl : h.entries with
  | nil =>
    rw [get_exhausted fs h c.1 c.2 hdone hl]
    simp [hdone, hl]
  | cons e rest =>
    rw [get_of_done fs h c.1 c.2 hdone]
    cases c.2 with
    | none =>
      rw [getReady_no_stat fs h e rest hl]
      exact ⟨hdone, rfl, fun d hd => by simpa using hd, Or.inl rfl⟩
    | some st0 =>
      cases hsi : e.statInfo with
      | some si =>
        rw [getReady_inline_entry fs h st0 e rest si hl hsi]
        exact ⟨hdone, rfl, fun d hd => by simpa using hd, Or.inl rfl⟩
      | none =>
        cases hok : (fs.Stat (h.path ++ ['/'] ++ e.name.take 255)).1.IsOK with
        | true =>
          rw [getReady_stat_ok fs h st0 e rest hl hsi hok]
          exact ⟨hdone, rfl, fun d hd => by simpa using hd, Or.inl rfl⟩
        | false =>
          rw [getReady_stat_fails fs h st0 e rest hl hsi hok]
          exact ⟨hdone, rfl, fun d hd => absurd hd (by simp), Or.inr ⟨_, hok, rfl⟩⟩

/-- The entries returned by successive calls on a resolved handler are, in
order, entries written for pending entries, each at most once. -/
theorem getSeq_returned_sublist (fs : FileSystem) :
    ∀ (cs : List GetArgs) (h : DirListHandler), h.done = true →
      List.Sublist ((getSeq fs h cs).filterMap (fun r => r.entry)) (h.entries.map dirent_of) := by
  intro cs
  induction cs with
  | nil => intro h _; simp [getSeq]
  | cons c cs ih =>
    intro h hdone
    obtain ⟨hd1, hd2, hd3, _⟩ := get_done_step fs h c hdone
    have hrec := ih _ hd1
    rw [hd2] at hrec
    simp only [getSeq]
    cases hl : h.entries with
    | nil =>
      rw [hl] at hrec hd3
      cases he : (DirListHandler.Get fs h c.1 c.2).entry with
      | none => simpa [List.filterMap_cons, he] using hrec
      | some d => exact absurd (hd3 d he) (by simp)
    | cons e rest =>
      rw [hl] at hrec hd3
      simp only [List.tail_cons] at hrec
      cases he : (DirListHandler.Get fs h c.1 c.2).entry with
      | none =>
        simp only [List.filterMap_cons, he, List.map_cons]
        exact List.Sublist.cons _ hrec
      | some d =>
        have hde : dirent_of e = d := by simpa using hd3 d he
        simp only [List.filterMap_cons, he, List.map_cons, hde]
        exact List.Sublist.cons₂ _ hrec

/-- Call number `i` of a sequence on a resolved handler leaves the pending
entries after the first `i + 1`, and an entry it returns is the one written
for pending entry number `i`. -/
theorem getSeq_position (fs : FileSystem) :
    ∀ (cs : List GetArgs) (h : DirListHandler), h.done = true → ∀ i, i < cs.length →
      ((getSeq fs h cs)[i]?).map (fun r => r.handler.entries) = some (h.entries.drop (i + 1)) ∧
      (∀ d, ((getSeq fs h cs)[i]?).bind (fun r => r.entry) = some d →
        (h.entries[i]?).map dirent_of = some d) := by
  intro cs
  induction cs with
  | nil => intro h _ i hi; simp at hi
  | cons c cs ih =>
    intro h hdone i hi
    obtain ⟨hd1, hd2, hd3, _⟩ := get_done_step fs h c hdone
    cases i with
    | zero =>
      simp only [getSeq, List.getElem?_cons_zero, Option.map_some', Option.some_bind, hd2,
        zero_add]
      refine ⟨by cases h.entries <;> simp, ?_⟩
      intro d hd
      have := hd3 d hd
      cases hl : h.entries with
      | nil => rw [hl] at this; simp at this
      | cons e rest => rw [hl] at this; simpa using this
    | succ j =>
      have hj : j < cs.length := by simpa using hi
      have hrec := ih _ hd1 j hj
      rw [hd2] at hrec
      simp only [getSeq, List.getElem?_cons_succ]
      cases hl : h.entries with
      | nil => rw [hl] at hrec; simpa using hrec
      | cons e rest => rw [hl] at hrec; simpa using hrec

/-- When as many calls as pending entries are made on a resolved handler and
every call returns an entry, the names returned are the names of the pending
entries in order, each as copied into the name buffer. -/
theorem getSeq_all_successful (fs : FileSystem) :
    ∀ (cs : List GetArgs) (h : DirListHandler), h.done = true →
      cs.length = h.entries.length →
      (∀ r ∈ getSeq fs h cs, r.entry.isSome = true) →
      (getSeq fs h cs).map (fun r => r.entry.map (fun d => d.d_name)) =
        h.entries.map (fun e => some (e.name.take 255)) := by
  intro cs
  induction cs with
  | nil =>
    intro h _ hlen _
    have : h.entries = [] := List.length_eq_zero.1 (by simpa using hlen.symm)
    simp [getSeq, this]
  | cons c cs ih =>
    intro h hdone hlen hall
    obtain ⟨hd1, hd2, hd3, _⟩ := get_done_step fs h c hdone
    cases hl : h.entries with
    | nil => rw [hl] at hlen; simp at hlen
    | cons e rest =>
      rw [hl] at hlen hd2 hd3
      simp only [List.tail_cons] at hd2
      have hlen2 : cs.length = (DirListHandler.Get fs h c.1 c.2).handler.entries.length := by
        rw [hd2]; simpa using hlen
      have hall2 : ∀ r ∈ getSeq fs (DirListHandler.Get fs h c.1 c.2).handler cs,
          r.entry.isSome = true := by
        intro r hr
        exact hall r (by simp [getSeq, hr])
      have hrec := ih _ hd1 hlen2 hall2
      rw [hd2] at hrec
      have hsome := hall (DirListHandler.Get fs h c.1 c.2) (by simp [getSeq])
      cases he : (DirListHandler.Get fs h c.1 c.2).entry with
      | none => rw [he] at hsome; simp at hsome
      | some d =>
        have hde : dirent_of e = d := by simpa using hd3 d he
        simp only [getSeq, List.map_cons, he, Option.map_some', hrec, ← hde]
        rfl

/-- Both readdir entry points return the entry that `Get` returns and leave
the handler that `Get` leaves. -/
theorem readdir_body_get (func : String) (fs : FileSystem) (errno : Int) (h : DirListHandler)
    (c : GetArgs) :
    (readdir_body func fs errno (some h) c.1 c.2).entry =
      (DirListHandler.Get fs h c.1 c.2).entry ∧
    (readdir_body func fs errno (some h) c.1 c.2).handler =
      some (DirListHandler.Get fs h c.1 c.2).handler ∧
    (readdir_body func fs errno (some h) c.1 c.2).stat_calls =
      (DirListHandler.Get fs h c.1 c.2).stat_calls := by
  unfold readdir_body
  simp only
  split
  · rename_i hc
    refine ⟨?_, rfl, rfl⟩
    have hnone : (DirListHandler.Get fs h c.1 c.2).entry = none := by
      cases he : (DirListHandler.Get fs h c.1 c.2).entry with
      | none => rfl
      | some d => rw [he] at hc; simp at hc
    rw [hnone]
  · exact ⟨rfl, rfl, rfl⟩

/-- A `Get` on a resolved handler that returns an entry leaves the recorded
error code as it was. -/
theorem get_done_returned_keeps_errcode (fs : FileSystem) (h : DirListHandler) (c : GetArgs)
    (hdone : h.done = true)
    (hret : (DirListHandler.Get fs h c.1 c.2).entry.isSome = true) :
    (DirListHandler.Get fs h c.1 c.2).handler.errcode = h.errcode := by
  cases hl : h.entries with
  | nil =>
    rw [get_exhausted fs h c.1 c.2 hdone hl]
  | cons e rest =>
    rw [get_of_done fs h c.1 c.2 hdone] at hret ⊢
    cases hst : c.2 with
    | none =>
      rw [getReady_no_stat fs h e rest hl]
    | some st0 =>
      rw [hst] at hret
      cases hsi : e.statInfo with
      | some si =>
        rw [getReady_inline_entry fs h st0 e rest si hl hsi]
      | none =>
        cases hok : (fs.Stat (h.path ++ ['/'] ++ e.name.take 255)).1.IsOK with
        | true =>
          rw [getReady_stat_ok fs h st0 e rest hl hsi hok]
        | false =>
          rw [getReady_stat_fails fs h st0 e rest hl hsi hok] at hret
          simp at hret

/-- Successive calls on a resolved handler that all return an entry leave a
resolved handler with the same recorded error code and the pending entries
after the first as many as there were calls. -/
theorem handlerAfter_all_returned (fs : FileSystem) :
    ∀ (cs : List GetArgs) (h : DirListHandler), h.done = true →
      (∀ r ∈ getSeq fs h cs, r.entry.isSome = true) →
      (handlerAfter fs h cs).done = true ∧
      (handlerAfter fs h cs).errcode = h.errcode ∧
      (handlerAfter fs h cs).entries = h.entries.drop cs.length := by
  intro cs
  induction cs with
  | nil => intro h hdone _; exact ⟨hdone, rfl, rfl⟩
  | cons c cs ih =>
    intro h hdone hall
    obtain ⟨hd1, hd2, _, _⟩ := get_done_step fs h c hdone
    have hret := hall (DirListHandler.Get fs h c.1 c.2) (by simp [getSeq])
    have hkeep := get_done_returned_keeps_errcode fs h c hdone hret
    have hall2 : ∀ r ∈ getSeq fs (DirListHandler.Get fs h c.1 c.2).handler cs,
        r.entry.isSome = true := by
      intro r hr
      exact hall r (by simp [getSeq, hr])
    obtain ⟨h1, h2, h3⟩ := ih _ hd1 hall2
    simp only [handlerAfter]
    refine ⟨h1, by rw [h2, hkeep], ?_⟩
    rw [h3, hd2]
    cases h.entries <;> simp

/-- C9: on a directory handler as opened, once a successful listing response
has arrived and every one of its entries has been retrieved (as many calls as
entries, each returning an entry), the pending sequence is empty and the next
call through readdir or readdir-with-stat returns a null entry with no error
set, makes no stat lookup and leaves the handler and the stat buffer as they
were. -/
theorem readdir_after_all_retrieved (fs : FileSystem) (errno : Int) (path : CStr)
    (status : XRootDStatus) (list : List ListEntry) (cs : List GetArgs)
    (arrival : Option (XRootDStatus × Option (List ListEntry))) (st : stat_t)
    (hok : status.IsOK = true)
    (hlen : cs.length = list.length)
    (hall : ∀ r ∈ getSeq fs
        (DirListHandler.HandleResponse fs (DirListHandler.new path) status (some list)) cs,
      r.entry.isSome = true) :
    (handlerAfter fs
      (DirListHandler.HandleResponse fs (DirListHandler.new path) status (some list))
      cs).entries = [] ∧
    gfal_xrootd_readdirG fs errno
        (some (handlerAfter fs
          (DirListHandler.HandleResponse fs (DirListHandler.new path) status (some list)) cs))
        arrival =
      { entry := none, st := none, err := none
        handler := some (handlerAfter fs
          (DirListHandler.HandleResponse fs (DirListHandler.new path) status (some list)) cs)
        stat_calls := [] } ∧
    gfal_xrootd_readdirppG fs errno
        (some (handlerAfter fs
          (DirListHandler.HandleResponse fs (DirListHandler.new path) status (some list)) cs))
        arrival st =
      { entry := none, st := some st, err := none
        handler := some (handlerAfter fs
          (DirListHandler.HandleResponse fs (DirListHandler.new path) status (some list)) cs)
        stat_calls := [] } := by
  have hentries : (DirListHandler.HandleResponse fs (DirListHandler.new path) status
      (some list)).entries = list := by
    unfold DirListHandler.HandleResponse DirListHandler.new
    simp [hok]
  have hdone : (DirListHandler.HandleResponse fs (DirListHandler.new path) status
      (some list)).done = true := by
    unfold DirListHandler.HandleResponse
    simp [hok]
  have herr : (DirListHandler.HandleResponse fs (DirListHandler.new path) status
      (some list)).errcode = 0 := by
    unfold DirListHandler.HandleResponse DirListHandler.new
    simp [hok]
  obtain ⟨h1, h2, h3⟩ := handlerAfter_all_returned fs cs _ hdone hall
  rw [herr] at h2
  rw [hentries, hlen, List.drop_length] at h3
  refine ⟨h3, ?_, ?_⟩
  · unfold gfal_xrootd_readdirG readdir_body
    simp only [get_exhausted fs _ arrival _ h1 h3]
    simp [h2]
  · unfold gfal_xrootd_readdirppG readdir_body
    simp only [get_exhausted fs _ arrival _ h1 h3]
    simp [h2]

/-- C9 witness: the listing of `/dir` carries `a` (no inline stat info) and
`b`; a readdir-with-stat returns `a` after a stat that succeeds, a readdir
returns `b`, and the next readdir returns a null entry with no error. -/
theorem readdir_after_all_retrieved_witness :
    stOK.IsOK = true ∧
    (getSeq exFsStatOk
        (DirListHandler.HandleResponse exFsStatOk (DirListHandler.new "/dir".toList) stOK
          (some exEntries))
        [(none, some exStat0), (none, none)]).map (fun r => r.entry.map (fun d => d.d_name)) =
      [some ['a'], some ['b']] ∧
    (gfal_xrootd_readdirG exFsStatOk 0
        (some (handlerAfter exFsStatOk
          (DirListHandler.HandleResponse exFsStatOk (DirListHandler.new "/dir".toList) stOK
            (some exEntries))
          [(none, some exStat0), (none, none)]))
        none).err = none ∧
    (gfal_xrootd_readdirG exFsStatOk 0
        (some (handlerAfter exFsStatOk
          (DirListHandler.HandleResponse exFsStatOk (DirListHandler.new "/dir".toList) stOK
            (some exEntries))
          [(none, some exStat0), (none, none)]))
        none).entry = none :=
  have hthm := readdir_after_all_retrieved exFsStatOk 0 "/dir".toList stOK exEntries
    [(none, some exStat0), (none, none)] none exStat0 rfl rfl (by decide)
  ⟨rfl, by decide, by rw [hthm.2.1], by rw [hthm.2.1]⟩

/-- The handler left by successive calls on a resolved handler whose recorded
error code is not zero is resolved and its recorded error code is not zero,
when every failed stat carries a code that is not zero. -/
theorem handlerAfter_errcode (fs : FileSystem)
    (hcode : ∀ p, (fs.Stat p).1.IsOK = false → (fs.Stat p).1.code ≠ 0) :
    ∀ (cs : List GetArgs) (h : DirListHandler), h.done = true → h.errcode ≠ 0 →
      (handlerAfter fs h cs).done = true ∧ (handlerAfter fs h cs).errcode ≠ 0 := by
  intro cs
  induction cs with
  | nil => intro h hdone herr; exact ⟨hdone, herr⟩
  | cons c cs ih =>
    intro h hdone herr
    obtain ⟨hd1, _, _, hd4⟩ := get_done_step fs h c hdone
    simp only [handlerAfter]
    apply ih _ hd1
    rcases hd4 with hsame | ⟨p, hp, hpc⟩
    · rw [hsame]; exact herr
    · rw [hpc]
      exact_mod_cast hcode p hp

/-- On a resolved handler with no pending entry and a recorded error code that
is not zero, both readdir entry points return a null entry and set an error. -/
theorem readdir_exhausted_with_errcode (fs : FileSystem) (errno : Int) (h : DirListHandler)
    (arrival : Option (XRootDStatus × Option (List ListEntry))) (st : stat_t)
    (hdone : h.done = true) (hempty : h.entries = []) (herr : h.errcode ≠ 0) :
    (gfal_xrootd_readdirG fs errno (some h) arrival).entry = none ∧
    (gfal_xrootd_readdirG fs errno (some h) arrival).err =
      some { domain := xrootd_domain, code := h.errcode
             message := "[gfal_xrootd_readdirG] Failed reading directory: " ++ h.errstr } ∧
    (gfal_xrootd_readdirppG fs errno (some h) arrival st).entry = none ∧
    (gfal_xrootd_readdirppG fs errno (some h) arrival st).err =
      some { domain := xrootd_domain, code := h.errcode
             message := "[gfal_xrootd_readdirppG] Failed reading directory: " ++ h.errstr } := by
  unfold gfal_xrootd_readdirG gfal_xrootd_readdirppG readdir_body
  simp only [get_exhausted fs h arrival _ hdone hempty]
  simp [herr]

/-- C11: a successful listing response stores its entries in the order given,
and successive `Get` calls walk that order: call number `i` leaves the entries
after the first `i + 1` pending, an entry it returns is the one written for
entry number `i` (the name as copied into the name buffer), the entries
returned form, in order, a sublist of the entries stored (each at most once),
and `n` successful calls on `n` entries return the `n` names in order. -/
theorem listing_order_preserved (fs : FileSystem) (h : DirListHandler)
    (status : XRootDStatus) (list : List ListEntry) (cs : List GetArgs)
    (hok : status.IsOK = true) (hempty : h.entries = []) :
    (DirListHandler.HandleResponse fs h status (some list)).entries = list ∧
    (DirListHandler.HandleResponse fs h status (some list)).done = true ∧
    (∀ i, i < cs.length →
      ((getSeq fs (DirListHandler.HandleResponse fs h status (some list)) cs)[i]?).map
          (fun r => r.handler.entries) = some (list.drop (i + 1)) ∧
      (∀ d, ((getSeq fs (DirListHandler.HandleResponse fs h status (some list)) cs)[i]?).bind
          (fun r => r.entry) = some d →
        (list[i]?).map dirent_of = some d ∧
        (list[i]?).map (fun e => e.name.take 255) = some d.d_name)) ∧
    List.Sublist
      ((getSeq fs (DirListHandler.HandleResponse fs h status (some list)) cs).filterMap
        (fun r => r.entry))
      (list.map dirent_of) ∧
    (cs.length = list.length →
      (∀ r ∈ getSeq fs (DirListHandler.HandleResponse fs h status (some list)) cs,
        r.entry.isSome = true) →
      (getSeq fs (DirListHandler.HandleResponse fs h status (some list)) cs).map
          (fun r => r.entry.map (fun d => d.d_name)) =
        list.map (fun e => some (e.name.take 255))) := by
  have hentries : (DirListHandler.HandleResponse fs h status (some list)).entries = list := by
    unfold DirListHandler.HandleResponse
    simp [hok, hempty]
  have hdone : (DirListHandler.HandleResponse fs h status (some list)).done = true := by
    unfold DirListHandler.HandleResponse
    simp [hok]
  refine ⟨hentries, hdone, ?_, ?_, ?_⟩
  · intro i hi
    have hpos := getSeq_position fs cs _ hdone i hi
    rw [hentries] at hpos
    refine ⟨hpos.1, ?_⟩
    intro d hd
    have h1 := hpos.2 d hd
    refine ⟨h1, ?_⟩
    cases hl : list[i]? with
    | none => rw [hl] at h1; simp at h1
    | some e =>
      rw [hl] at h1
      have h2 : dirent_of e = d := by simpa using h1
      rw [← h2]
      rfl
  · have hsub := getSeq_returned_sublist fs cs _ hdone
    rw [hentries] at hsub
    exact hsub
  · intro hlen hall
    have hnames := getSeq_all_successful fs cs _ hdone (by rw [hentries]; exact hlen) hall
    rw [hentries] at hnames
    exact hnames

/-- C11 witness: the response carries `a` then `b`; two calls without a stat
buffer return `a` then `b`. -/
theorem listing_order_preserved_witness :
    stOK.IsOK = true ∧ (DirListHandler.new "/dir".toList).entries = [] ∧
    (getSeq exFsStatOk
        (DirListHandler.HandleResponse exFsStatOk (DirListHandler.new "/dir".toList) stOK
          (some exEntries))
        [(none, none), (none, none)]).map (fun r => r.entry.map (fun d => d.d_name)) =
      exEntries.map (fun e => some (e.name.take 255)) ∧
    exEntries.map (fun e => some (e.name.take 255)) = [some ['a'], some ['b']] :=
  ⟨rfl, rfl,
    (listing_order_preserved exFsStatOk (DirListHandler.new "/dir".toList) stOK exEntries
      [(none, none), (none, none)] rfl rfl).2.2.2.2 rfl (by decide),
    rfl⟩

/-- C13: when metadata is requested, the popped entry has no inline stat info
and the fallback stat fails, `Get` returns no entry and records the code and
text of the stat status; the entry is removed, so the pending sequence is one
shorter and later calls return only entries that were behind it; and, every
failed stat carrying a code that is not zero, the recorded error code is not
zero after any later calls, so an end of sequence reached later is reported as
an error by both readdir entry points. -/
theorem failed_fallback_stat_pops_entry (fs : FileSystem) (h : DirListHandler)
    (arrival : Option (XRootDStatus × Option (List ListEntry))) (st0 : stat_t)
    (e : ListEntry) (rest : List ListEntry)
    (hdone : h.done = true) (hentries : h.entries = e :: rest) (hsi : e.statInfo = none)
    (hfail : (fs.Stat (h.path ++ ['/'] ++ e.name.take 255)).1.IsOK = false) :
    (DirListHandler.Get fs h arrival (some st0)).entry = none ∧
    (DirListHandler.Get fs h arrival (some st0)).handler.errcode =
      ((fs.Stat (h.path ++ ['/'] ++ e.name.take 255)).1.code : Int) ∧
    (DirListHandler.Get fs h arrival (some st0)).handler.errstr =
      fs.ToString (fs.Stat (h.path ++ ['/'] ++ e.name.take 255)).1 ∧
    (DirListHandler.Get fs h arrival (some st0)).handler.entries = rest ∧
    (DirListHandler.Get fs h arrival (some st0)).handler.entries.length + 1 =
      h.entries.length ∧
    (∀ cs : List GetArgs,
      List.Sublist
        ((getSeq fs (DirListHandler.Get fs h arrival (some st0)).handler cs).filterMap
          (fun r => r.entry))
        (rest.map dirent_of)) ∧
    ((∀ p, (fs.Stat p).1.IsOK = false → (fs.Stat p).1.code ≠ 0) →
      ∀ cs : List GetArgs,
        (handlerAfter fs (DirListHandler.Get fs h arrival (some st0)).handler cs).errcode ≠ 0 ∧
        ((handlerAfter fs (DirListHandler.Get fs h arrival (some st0)).handler cs).entries
            = [] →
          ∀ (errno : Int) (a2 : Option (XRootDStatus × Option (List ListEntry))) (st2 : stat_t),
            (gfal_xrootd_readdirG fs errno
              (some (handlerAfter fs (DirListHandler.Get fs h arrival (some st0)).handler cs))
              a2).entry = none ∧
            (gfal_xrootd_readdirG fs errno
              (some (handlerAfter fs (DirListHandler.Get fs h arrival (some st0)).handler cs))
              a2).err.isSome = true ∧
            (gfal_xrootd_readdirppG fs errno
              (some (handlerAfter fs (DirListHandler.Get fs h arrival (some st0)).handler cs))
              a2 st2).entry = none ∧
            (gfal_xrootd_readdirppG fs errno
              (some (handlerAfter fs (DirListHandler.Get fs h arrival (some st0)).handler cs))
              a2 st2).err.isSome = true)) := by
  have hget : DirListHandler.Get fs h arrival (some st0) =
      { entry := none
        st := some st0
        handler :=
          { h with
            entries := rest
            dbuffer := dirent_of e
            errcode := ((fs.Stat (h.path ++ ['/'] ++ e.name.take 255)).1.code : Int)
            errstr := fs.ToString (fs.Stat (h.path ++ ['/'] ++ e.name.take 255)).1 }
        stat_calls := [h.path ++ ['/'] ++ e.name.take 255] } := by
    rw [get_of_done fs h arrival _ hdone, getReady_stat_fails fs h st0 e rest hentries hsi hfail]
  have hdone1 : (DirListHandler.Get fs h arrival (some st0)).handler.done = true := by
    rw [hget]; exact hdone
  have hrest : (DirListHandler.Get fs h arrival (some st0)).handler.entries = rest := by
    rw [hget]
  refine ⟨by rw [hget], by rw [hget], by rw [hget], hrest, ?_, ?_, ?_⟩
  · rw [hrest, hentries]; rfl
  · intro cs
    have hsub := getSeq_returned_sublist fs cs _ hdone1
    rw [hrest] at hsub
    exact hsub
  · intro hcode cs
    have herr1 : (DirListHandler.Get fs h arrival (some st0)).handler.errcode ≠ 0 := by
      rw [hget]
      show ((fs.Stat (h.path ++ ['/'] ++ e.name.take 255)).1.code : Int) ≠ 0
      exact_mod_cast hcode _ hfail
    obtain ⟨hd, he⟩ := handlerAfter_errcode fs hcode cs _ hdone1 herr1
    refine ⟨he, ?_⟩
    intro hnil errno a2 st2
    have hr := readdir_exhausted_with_errcode fs errno _ a2 st2 hd hnil he
    refine ⟨hr.1, ?_, hr.2.2.1, ?_⟩
    · rw [hr.2.1]; rfl
    · rw [hr.2.2.2]; rfl

/-- C13 witness: on `exListing` with a failing stat, readdir-with-stat on `a`
returns no entry, records code 206 and leaves `b` pending; after a later
readdir of `b`, the end of the sequence is reported as an error. -/
theorem failed_fallback_stat_pops_entry_witness :
    exListing.done = true ∧
    (exFsStatFails.Stat (exListing.path ++ ['/'] ++ ['a'])).1.IsOK = false ∧
    (DirListHandler.Get exFsStatFails exListing none (some exStat0)).entry = none ∧
    (DirListHandler.Get exFsStatFails exListing none (some exStat0)).handler.errcode = 206 ∧
    (gfal_xrootd_readdirG exFsStatFails 0
      (some (handlerAfter exFsStatFails
        (DirListHandler.Get exFsStatFails exListing none (some exStat0)).handler
        [(none, none)])) none).err.isSome = true :=
  have hthm := failed_fallback_stat_pops_entry exFsStatFails exListing none exStat0
    { name := ['a'], statInfo := none }
    [{ name := ['b'], statInfo := some { size := 0, flags := 18, modTime := 5 } }]
    rfl rfl rfl rfl
  ⟨rfl, rfl, hthm.1, hthm.2.1,
    ((hthm.2.2.2.2.2.2 (fun _ _ => Nat.succ_ne_zero 205) [(none, none)]).2 rfl 0 none exStat0).2.1⟩

end GfalXrootd
